import Mathlib

/-!
Verification development for the md2latex LaTeX renderer (`pkg/latex.go`).

The Go sources are shallowly embedded: byte/rune strings become `String` /
`List Char`, byte values become `Nat`, the parser's node tree becomes the
inductive `Node`, and the stateful renderer becomes explicit state passing.
Code paths that dereference nil pointers or index out of bounds (Go panics)
are modelled by `Option`, with `none` denoting the panic.

Notational convention: literal braces inside string literals are written with
the escapes `\x7b` (`{`) and `\x7d` (`}`).
-/

/-- The renderer's transient quote-tracking state (`Renderer.quoted`,
`Renderer.quoteOpen` in `latex.go`). -/
structure EscState where
  quoted : Bool
  quoteOpen : Bool
deriving Repr, DecidableEq

/-- The zero state of a fresh `Renderer`. -/
def st0 : EscState := ⟨false, false⟩

/-- The `latexEscaper` map of `latex.go` (lines 100-111).  A `none` result
models absence from the map (lookup yields a nil slice); note that the
apostrophe maps to an *empty but present* entry, and that `"` has *no* entry.

`\textbackslash{}` spelled out; `{`/`}` map to backslash-escaped braces. -/
def latexEscaper : Char → Option String
  | '#' => some "\\#"
  | '$' => some "\\$"
  | '%' => some "\\%"
  | '&' => some "\\&"
  | '\\' => some "\\textbackslash\x7b\x7d"
  | '_' => some "\\_"
  | '\x7b' => some "\\\x7b"
  | '\x7d' => some "\\\x7d"
  | '~' => some "\\~"
  | '\'' => some ""
  | _ => none

/-- The whitespace/period set used by both apostrophe look-behind and
look-ahead switches in `Escape` (cases `'\r', '\n', ' ', '\t', '.'`). -/
def wsDot : List Char := ['\r', '\n', ' ', '\t', '.']

/-- One escaped special character of `Escape` (`latex.go` lines 139-179):
given the previous rune (`none` at the start of the run), the current state,
the special rune `c`, the remaining runes (for the `text[i+1]` look-ahead) and
the mapped replacement, produce the emitted text and the next state.
`none` models the out-of-range `text[i+1]` access (a Go panic) that happens
when a quoted-open apostrophe is the final rune. -/
def escSpecial (prev : Option Char) (st : EscState) (c : Char) (rest : List Char)
    (repl : String) : Option (String × EscState) :=
  if c = '"' then
    -- case '"': both arms emit U+201C and toggle `quoted`.  (Unreachable in
    -- practice: '"' has no latexEscaper entry, so the copy loop never stops
    -- at it; transcribed faithfully from the source.)
    if st.quoted then
      some ("“", { st with quoted := false })
    else
      some ("“", { st with quoted := true })
  else if c = '\'' then
    if st.quoted then
      if st.quoteOpen then
        -- Go: `if r.quoteOpen && i < len(text)`; `i < len(text)` always holds
        -- here, and `text[i+1]` is then read unconditionally.
        match rest with
        | [] => none  -- i+1 == len(text): index out of range
        | c2 :: _ =>
          if c2 ∈ wsDot then
            some ("’", ⟨false, false⟩)
          else
            -- no case of the switch matches: nothing is written
            some ("", ⟨false, false⟩)
      else
        some ("‘", ⟨false, false⟩)
    else
      match prev with
      | some p =>
        if p ∈ wsDot then
          some ("‘", ⟨true, true⟩)
        else
          some ("’", st)
      | none =>
        -- i == 0: start of run
        some ("‘", ⟨true, true⟩)
  else
    some (repl, st)

/-- The loop of `Escape` (`latex.go` lines 122-181), one rune at a time:
runes without a `latexEscaper` entry are copied verbatim (the source copies
them in maximal runs, which emits the same bytes), runes with an entry go
through `escSpecial`.  `prev` tracks `text[i-1]`. -/
def escChars (prev : Option Char) (st : EscState) : List Char → Option (String × EscState)
  | [] => some ("", st)
  | c :: rest =>
    match latexEscaper c with
    | none =>
      match escChars (some c) st rest with
      | none => none
      | some (out, st') => some (String.mk [c] ++ out, st')
    | some repl =>
      match escSpecial prev st c rest repl with
      | none => none
      | some (g, st1) =>
        match escChars (some c) st1 rest with
        | none => none
        | some (out, st') => some (g ++ out, st')

/-- `Renderer.Escape`: escape a text run starting from state `st`, returning
the emitted text and the final state; `none` models a panic. -/
def Escape (st : EscState) (t : String) : Option (String × EscState) :=
  escChars none st t.data

-- sanity checks against the source semantics
example : Escape st0 "abcd" = some ("abcd", st0) := rfl
example : Escape st0 "a#b" = some ("a\\#b", st0) := rfl
example : Escape st0 "a\\b" = some ("a\\textbackslash\x7b\x7db", st0) := rfl
example : latexEscaper '"' = none := rfl
example : Escape st0 "\"foo\"" = some ("\"foo\"", st0) := rfl
example : Escape st0 "'tis" = some ("‘tis", ⟨true, true⟩) := rfl
example : Escape st0 "it's" = some ("it’s", st0) := rfl
example : Escape st0 "'a'" = none := rfl
example : Escape st0 "'a' b" = some ("‘a’ b", st0) := rfl
example : Escape st0 "'a'b" = some ("‘ab", st0) := rfl

/-- The inner scans of `getDelimiter` (`latex.go` lines 216-234): the first
value `k` with `k ∉ text`, trying `n` consecutive candidates starting at `k`
(`n` plays the role of `hi - k` of the Go `for k := lo; k < hi; k++` loop). -/
def findFreeByte : Nat → Nat → List Nat → Option Nat
  | _, 0, _ => none
  | k, n + 1, text => if k ∈ text then findFreeByte (k + 1) n text else some k

/-- `getDelimiter` (`latex.go` lines 216-234): first free byte in `'!'..')'`
(33..41, i.e. below `'*'` = 42), else first free byte in `'+'..127` (43 up to
but excluding 128), else 0.  `text` is the literal's byte sequence. -/
def getDelimiter (text : List Nat) : Nat :=
  match findFreeByte 33 9 text with   -- k from '!' (33) while k < '*' (42)
  | some k => k
  | none =>
    match findFreeByte 43 85 text with  -- k from '+' (43) while k < 128
    | some k => k
    | none => 0

example : getDelimiter [] = 33 := rfl
example : getDelimiter [33] = 34 := rfl
-- content containing every one of '!'..'(' (33..40): the free byte ')' (41)
example : getDelimiter (List.range' 33 8) = 41 := rfl
-- content containing every one of '!'..'~' (33..126): the free byte DEL (127)
example : getDelimiter (List.range' 33 94) = 127 := rfl
-- only when every byte 33..127 occurs does getDelimiter give up
example : getDelimiter (List.range' 33 95) = 0 := rfl

/-- `bytes.HasPrefix` / `strings.HasPrefix` over rune lists. -/
def startsWithL : List Char → List Char → Bool
  | _, [] => true
  | [], _ :: _ => false
  | c :: cs, p :: ps => c = p && startsWithL cs ps

/-- `strings.LastIndexByte(s, c)` (index of the last occurrence, `-1` if
absent).  Over runes; for the newline searches of the renderer the rune index
is positive/zero/absent exactly when the byte index is. -/
def lastIdx (c : Char) : List Char → Int
  | [] => -1
  | x :: xs =>
    let r := lastIdx c xs
    if r ≥ 0 then r + 1
    else if x = c then 0 else -1

example : lastIdx '\n' "ab".data = -1 := rfl
example : lastIdx '\n' "\nab".data = 0 := rfl
example : lastIdx '\n' "a\nb\nc".data = 3 := rfl

/-- `unicode.IsSpace` restricted to the Latin-1 range, which is what
`strings.TrimSpace` tests for the renderer's ASCII-ish attribution lines
(higher White_Space code points are not modelled). -/
def goIsSpace (c : Char) : Bool :=
  c = ' ' || c = '\t' || c = '\n' || c = '\x0b' || c = '\x0c' || c = '\r' ||
  c = '\x85' || c = '\xa0'

/-- `strings.TrimSpace`. -/
def trimSpace (s : String) : String :=
  String.mk (((s.data.dropWhile goIsSpace).reverse.dropWhile goIsSpace).reverse)

example : trimSpace "  a b\t" = "a b" := rfl

/-- `hasPrefixCaseInsensitive` (`latex.go` lines 236-247), over runes: each
prefix rune must equal the subject rune or the subject rune shifted to lower
case by `'a' - 'A'` (= 32). -/
def hasPfxCaseInsensitive : List Char → List Char → Bool
  | s, pfx =>
    if s.length < pfx.length then false
    else hpciLoop s pfx
where
  hpciLoop : List Char → List Char → Bool
  | _, [] => true
  | [], _ :: _ => true  -- unreachable given the length guard
  | c :: cs, b :: bs => (b = c || b.toNat = c.toNat + 32) && hpciLoop cs bs

example : hasPfxCaseInsensitive "HTTP://x".data "http://".data = true := rfl
example : hasPfxCaseInsensitive "https://x".data "http://".data = false := rfl
example : hasPfxCaseInsensitive "ftp://x".data "http://".data = false := rfl

/-- `languageAttr` (`latex.go` lines 183-192): the info-string token before
the first tab or space (the whole string if none; nil for empty input). -/
def languageAttr (info : List Char) : List Char :=
  if info = [] then []
  else
    match info.findIdx? (fun c => c = '\t' || c = ' ') with
    | none => info
    | some i => info.take i

example : languageAttr "go linenos".data = "go".data := rfl
example : languageAttr "go".data = "go".data := rfl

/-- Length of the suffix `filepath.Ext` would return, computed on the
*reversed* rune list: scan from the end, stopping at a path separator. -/
def extLenRev : List Char → Nat
  | [] => 0
  | c :: rest =>
    if c = '/' then 0
    else if c = '.' then 1
    else
      match extLenRev rest with
      | 0 => 0
      | k => k + 1

/-- `dest[:len(dest)-len(filepath.Ext(dest))]` of the image case. -/
def stripExt (d : List Char) : List Char :=
  d.take (d.length - extLenRev d.reverse)

example : stripExt "foobar.jpg".data = "foobar".data := rfl
example : stripExt "a/b.c/d".data = "a/b.c/d".data := rfl
example : stripExt "dir/.bashrc".data = "dir/".data := rfl

/-- Cell alignment (`bf.CellAlignFlags`: left = 1, right = 2,
center = left|right = 3; 0 = unset). -/
inductive Align where
  | default
  | left
  | right
  | center
deriving Repr, DecidableEq

/-- `bf.TableData.Border` as read by the renderer (field `rigth` spelled as in
the source). -/
structure Border where
  left : Bool := false
  column : Bool := false
  rigth : Bool := false
  top : Bool := false
  bottom : Bool := false
  row : Bool := false
deriving Repr, DecidableEq

/-- `decimal.Decimal`, modelled by the only two operations the renderer
applies to it: `IsZero` and formatting with `%s`. -/
structure Decimal where
  repr : String
  isZero : Bool
deriving Repr, DecidableEq

/-- The `TableCellData.Opts` entries the renderer reads (`"width"`, a
decimal, and `"sep"`, a bool); `none` fields model absent keys. -/
structure CellOpts where
  width : Option Decimal := none
  sep : Option Bool := none
deriving Repr, DecidableEq

/-- `bf.ListType` flag bits read by the renderer. -/
structure ListFlags where
  ordered : Bool := false
  definition : Bool := false
  term : Bool := false
deriving Repr, DecidableEq

/-- The node tree (`bf.Node`), with exactly the per-type fields the renderer
reads.  A footnote-reference link carries the referenced footnote node
(`LinkData.Footnote`, `none` modelling a nil pointer). -/
inductive Node where
  | document (children : List Node)
  | blockQuote (children : List Node)
  | code (literal : String)
  | codeBlock (info : String) (literal : String)
  | del (children : List Node)
  | emph (children : List Node)
  | hardbreak
  | heading (level : Nat) (isTitleblock : Bool) (config : String) (children : List Node)
  | htmlBlock (literal : String)
  | htmlSpan (literal : String)
  | horizontalRule
  | image (dest : String) (title : Option String) (children : List Node)
  | item (flags : ListFlags) (children : List Node)
  | link (dest : String) (noteID : Nat) (footnote : Option Node) (children : List Node)
  | list (flags : ListFlags) (isFootnotesList : Bool) (children : List Node)
  | paragraph (children : List Node)
  | softbreak
  | strong (children : List Node)
  | table (border : Border) (children : List Node)
  | tableBody (children : List Node)
  | tableCell (isHeader : Bool) (isLast : Bool) (align : Align) (opts : Option CellOpts) (children : List Node)
  | tableHead (children : List Node)
  | tableRow (isLast : Bool) (children : List Node)
  | text (literal : String)

namespace Node

/-- The child list (empty for leaf node types). -/
def children : Node → List Node
  | .document cs | .blockQuote cs | .del cs | .emph cs
  | .heading _ _ _ cs | .image _ _ cs | .item _ cs | .link _ _ _ cs
  | .list _ _ cs | .paragraph cs | .strong cs | .table _ cs
  | .tableBody cs | .tableCell _ _ _ _ cs | .tableHead cs | .tableRow _ cs => cs
  | .code _ | .codeBlock _ _ | .hardbreak | .htmlBlock _ | .htmlSpan _
  | .horizontalRule | .softbreak | .text _ => []

/-- Replace the child list, keeping all other fields. -/
def withChildren : Node → List Node → Node
  | .document _, cs => .document cs
  | .blockQuote _, cs => .blockQuote cs
  | .del _, cs => .del cs
  | .emph _, cs => .emph cs
  | .heading l tb cfg _, cs => .heading l tb cfg cs
  | .image d t _, cs => .image d t cs
  | .item f _, cs => .item f cs
  | .link d nid fn _, cs => .link d nid fn cs
  | .list f ifl _, cs => .list f ifl cs
  | .paragraph _, cs => .paragraph cs
  | .strong _, cs => .strong cs
  | .table b _, cs => .table b cs
  | .tableBody _, cs => .tableBody cs
  | .tableCell h l a o _, cs => .tableCell h l a o cs
  | .tableHead _, cs => .tableHead cs
  | .tableRow l _, cs => .tableRow l cs
  | n, _ => n

/-- `bf.Node.isContainer` for the modelled node types (matches blackfriday:
containers get an entering and a leaving visit, leaves only an entering
one). -/
def isContainer : Node → Bool
  | .document _ | .blockQuote _ | .del _ | .emph _ | .heading _ _ _ _
  | .image _ _ _ | .item _ _ | .link _ _ _ _ | .list _ _ _ | .paragraph _
  | .strong _ | .table _ _ | .tableBody _ | .tableCell _ _ _ _ _
  | .tableHead _ | .tableRow _ _ => true
  | _ => false

end Node

/-- The fields a rendering case reads from `node.Parent` (or
`node.Parent.Parent`): zero values for node types that do not carry them,
matching the zero-valued embedded data structs of `bf.Node`. -/
structure NMeta where
  isItem : Bool := false
  listTerm : Bool := false
  isTableBody : Bool := false
  borderRow : Bool := false
deriving Repr, DecidableEq

/-- The summary of a node used when it acts as a parent/grandparent. -/
def Node.meta : Node → NMeta
  | .item f _ => { isItem := true, listTerm := f.term }
  | .tableBody _ => { isTableBody := true }
  | .table b _ => { borderRow := b.row }
  | _ => {}

/-- Traversal context of one node: its parent's and grandparent's summaries
(`none` = nil pointer) and whether `node.Next` is non-nil. -/
structure Ctx where
  parent : Option NMeta := none
  grand : Option NMeta := none
  hasNext : Bool := false
deriving Repr, DecidableEq

/-- Context of a walk root (a node visited with no parent information
available). -/
def rootCtx : Ctx := {}

mutual

/-- Node count of a tree (footnote subtree included); termination measure for
the walker. -/
def weight : Node → Nat
  | .link _ _ fn cs => 1 + weightOpt fn + weightL cs
  | .document cs | .blockQuote cs | .del cs | .emph cs
  | .heading _ _ _ cs | .image _ _ cs | .item _ cs
  | .list _ _ cs | .paragraph cs | .strong cs | .table _ cs
  | .tableBody cs | .tableCell _ _ _ _ cs | .tableHead cs | .tableRow _ cs => 1 + weightL cs
  | .code _ | .codeBlock _ _ | .hardbreak | .htmlBlock _ | .htmlSpan _
  | .horizontalRule | .softbreak | .text _ => 1

def weightOpt : Option Node → Nat
  | none => 0
  | some f => weight f

def weightL : List Node → Nat
  | [] => 0
  | c :: cs => weight c + weightL cs

end

theorem weight_pos : ∀ n, 0 < weight n := by
  intro n
  cases n <;> simp [weight]

theorem weightL_append (xs ys : List Node) :
    weightL (xs ++ ys) = weightL xs + weightL ys := by
  induction xs with
  | nil => simp [weightL]
  | cons c cs ih => simp [weightL, ih]; omega

theorem weightL_dropLast_le (xs : List Node) : weightL xs.dropLast ≤ weightL xs := by
  induction xs with
  | nil => simp
  | cons c cs ih =>
    cases cs with
    | nil => simp [weightL, List.dropLast]
    | cons d ds =>
      rw [List.dropLast_cons₂]
      have h := ih
      simp only [weightL] at h ⊢
      omega

theorem weightL_children_lt (n : Node) : weightL n.children < weight n := by
  cases n <;> simp [Node.children, weight, weightL]

/-- The block-quote attribution inspection and tree edit performed by
`RenderNode` on entering a `BlockQuote` (`latex.go` lines 254-280), as a
function of the quote's child list.  Returns the `args` passed to `Env` and
the (possibly mutated) child list; `none` models the nil dereferences
(`node.LastChild.Type` / `node.LastChild.LastChild.Type`) that panic when the
quote, or its final paragraph, has no children. -/
def bqExtract (cs : List Node) : Option (List String × List Node) :=
  match cs.getLast? with
  | none => none  -- node.LastChild is nil
  | some lastChild =>
    match lastChild with
    | .paragraph pcs =>
      match pcs.getLast? with
      | none => none  -- node.LastChild.LastChild is nil
      | some lastText =>
        match lastText with
        | .text lit =>
          let s := lit.data
          if s.length > 0 then
            let pos := lastIdx '\n' s
            if pos > 0 then
              let lastLine := s.drop (pos.toNat + 1)
              if startsWithL lastLine ("-- ".data) then
                -- trailing-line attribution: truncate the literal at the newline
                let args := [trimSpace (String.mk (lastLine.drop 3))]
                let para := Node.paragraph (pcs.dropLast ++ [Node.text (String.mk (s.take pos.toNat))])
                some (args, cs.dropLast ++ [para])
              else some ([], cs)
            else if pos = -1 then
              if startsWithL s ("-- ".data) then
                let args := [trimSpace (String.mk (s.drop 3))]
                if pcs.length ≥ 2 then
                  -- text.Prev != nil: cut the text node off its paragraph
                  some (args, cs.dropLast ++ [Node.paragraph pcs.dropLast])
                else if cs.length ≥ 2 then
                  -- node.LastChild.Prev != nil: cut the paragraph off the quote
                  some (args, cs.dropLast)
                else
                  -- neither Prev exists: args extracted, nothing detached
                  some (args, cs)
              else some ([], cs)
            else some ([], cs)  -- pos == 0: neither branch applies
          else some ([], cs)
        | _ => some ([], cs)
    | _ => some ([], cs)

/-- The child list the walker descends into after the entering visit: for a
block quote the (possibly mutated) list produced by the attribution edit, for
every other node its plain children. -/
def bqEff (n : Node) : List Node :=
  match n with
  | .blockQuote cs =>
    match bqExtract cs with
    | some (_, cs') => cs'
    | none => cs  -- unreachable: the entering visit already panicked
  | _ => n.children

theorem weightL_getLast_le (xs : List Node) (x : Node) (h : xs.getLast? = some x) :
    weightL xs.dropLast + weight x = weightL xs := by
  have hx : xs = xs.dropLast ++ [x] := (List.dropLast_append_getLast? _ h).symm
  conv_rhs => rw [hx]
  rw [weightL_append]
  simp [weightL]

theorem weightL_replaceLastPara_le (cs pcs pcs' : List Node)
    (hl : cs.getLast? = some (.paragraph pcs)) (hle : weightL pcs' ≤ weightL pcs) :
    weightL (cs.dropLast ++ [Node.paragraph pcs']) ≤ weightL cs := by
  have h1 := weightL_getLast_le cs (.paragraph pcs) hl
  rw [weightL_append]
  simp only [weight, weightL] at *
  omega

theorem weightL_bqExtract_le (cs : List Node) (args : List String) (cs' : List Node)
    (h : bqExtract cs = some (args, cs')) : weightL cs' ≤ weightL cs := by
  unfold bqExtract at h
  rcases hl : cs.getLast? with _ | lastChild
  · rw [hl] at h; exact absurd h (by simp)
  · rw [hl] at h
    cases lastChild with
    | paragraph pcs =>
      simp only at h
      rcases hp : pcs.getLast? with _ | lastText
      · rw [hp] at h; exact absurd h (by simp)
      · rw [hp] at h
        have hpsplit := weightL_getLast_le pcs lastText hp
        cases lastText with
        | text lit =>
          simp only at h
          split at h
          · -- lit.data.length > 0
            split at h
            · -- pos > 0
              split at h
              · -- trailing "-- " line found: replace the paragraph
                injection h with h'
                injection h' with _ h''
                subst h''
                refine weightL_replaceLastPara_le cs pcs _ hl ?_
                rw [weightL_append]
                have := weightL_dropLast_le pcs
                simp only [weight, weightL] at *
                omega
              · injection h with h'
                injection h' with _ h''
                subst h''
                exact le_refl _
            · split at h
              · -- pos = -1
                split at h
                · -- literal itself is the "-- " line
                  split at h
                  · -- text.Prev != nil
                    injection h with h'
                    injection h' with _ h''
                    subst h''
                    refine weightL_replaceLastPara_le cs pcs _ hl ?_
                    exact weightL_dropLast_le pcs
                  · split at h
                    · -- paragraph.Prev != nil
                      injection h with h'
                      injection h' with _ h''
                      subst h''
                      exact weightL_dropLast_le cs
                    · injection h with h'
                      injection h' with _ h''
                      subst h''
                      exact le_refl _
                · injection h with h'
                  injection h' with _ h''
                  subst h''
                  exact le_refl _
              · injection h with h'
                injection h' with _ h''
                subst h''
                exact le_refl _
          · injection h with h'
            injection h' with _ h''
            subst h''
            exact le_refl _
        | _ =>
          first
          | (simp only at h; injection h with h'; injection h' with _ h''; subst h''; exact le_refl _)
    | _ =>
      first
      | (simp only at h; injection h with h'; injection h' with _ h''; subst h''; exact le_refl _)

theorem weightL_bqEff_lt (n : Node) : weightL (bqEff n) < weight n := by
  cases n with
  | blockQuote cs =>
    rcases hb : bqExtract cs with _ | p
    · simp only [bqEff, hb]
      exact weightL_children_lt (.blockQuote cs)
    · obtain ⟨args, cs'⟩ := p
      simp only [bqEff, hb]
      have := weightL_bqExtract_le cs args cs' hb
      simp only [weight]
      omega
  | _ => simp only [bqEff]; exact weightL_children_lt _

/-- The `cellAlignment` array of `latex.go` (lines 93-98): index 0 and
`TableAlignmentLeft` give `'l'`, `TableAlignmentRight` gives `'r'`,
`TableAlignmentCenter` gives `'c'`. -/
def cellAlignment : Align → Char
  | .default => 'l'
  | .left => 'l'
  | .right => 'r'
  | .center => 'c'

/-- `Align` field of a node as the column-spec loop reads it (zero value for
non-cell nodes). -/
def Node.cellAlign : Node → Align
  | .tableCell _ _ a _ _ => a
  | _ => .default

/-- `TableCellData.Opts` of a node (nil for non-cell nodes). -/
def Node.cellOpts : Node → Option CellOpts
  | .tableCell _ _ _ o _ => o
  | _ => none

/-- `TableCellData.IsLast` of a node (false for non-cell nodes). -/
def Node.cellIsLast : Node → Bool
  | .tableCell _ l _ _ _ => l
  | _ => false

/-- The sub-alignment suffix emitted after a width-sized `p{..}` column
(`latex.go` lines 548-555). -/
def subAlign : Align → String
  | .right => "<\x7b\\raggedleft\\arraybackslash\x7d"
  | .center => "<\x7b\\centering\\arraybackslash\x7d"
  | _ => ""

/-- One iteration of the column-spec loop over the first row's cells
(`latex.go` lines 527-566): returns the text written for this cell and the
final value of the loop's `sep` variable. -/
def cellColItem (border : Border) (cell : Node) : String × Bool :=
  let sep := border.column
  match cell.cellOpts with
  | none =>
    let sep := if cell.cellIsLast then false else sep
    (String.mk [cellAlignment cell.cellAlign] ++ (if sep then "|" else ""), sep)
  | some opts =>
    let sep :=
      if sep then (if cell.cellIsLast then false else sep)
      else (match opts.sep with | some b => b | none => false)
    let widthZero := match opts.width with | none => true | some d => d.isZero
    let widthTxt :=
      match opts.width with
      | some d =>
        if !d.isZero then
          "p\x7b" ++ d.repr ++ "\\textwidth\x7d" ++ subAlign cell.cellAlign
        else ""
      | none => ""
    let writed := !widthZero
    ((if writed then widthTxt else String.mk [cellAlignment cell.cellAlign]) ++
       (if sep then "|" else ""), sep)

/-- The `for cell := c; cell != nil; cell = cell.Next` loop: concatenation of
the per-cell texts, and the value `sep` has after the final iteration
(`false` when the loop body never ran). -/
def cellsLoop (border : Border) : List Node → String × Bool
  | [] => ("", false)
  | [c] => cellColItem border c
  | c :: rest =>
    let (s, _) := cellColItem border c
    let (s2, sep) := cellsLoop border rest
    (s ++ s2, sep)

mutual

/-- The `node.Walk` of the `Table` entering case (`latex.go` lines 519-574)
over a child list: find the first `TableCell` in document order and return it
together with its following siblings (the `cell.Next` chain). -/
def findCellsL : List Node → Option (List Node)
  | [] => none
  | n :: rest =>
    match findCellsN n with
    | some r => some r
    | none =>
      match n with
      | .tableCell h l a o cs => some (Node.tableCell h l a o cs :: rest)
      | _ => findCellsL rest

def findCellsN : Node → Option (List Node)
  | .document cs | .blockQuote cs | .del cs | .emph cs
  | .heading _ _ _ cs | .image _ _ cs | .item _ cs | .link _ _ _ cs
  | .list _ _ cs | .paragraph cs | .strong cs | .table _ cs
  | .tableBody cs | .tableCell _ _ _ _ cs | .tableHead cs | .tableRow _ cs => findCellsL cs
  | _ => none

end

/-- The column specification written between `\begin{tabular}{` and `}`
(`latex.go` lines 517-575): nothing when no cell exists; otherwise the
optional left border, the per-cell loop, and the optional right border
(suppressed when the loop left `sep` set). -/
def colSpec (border : Border) (cs : List Node) : String :=
  match findCellsL cs with
  | none => ""
  | some cells =>
    let (body, sep) := cellsLoop border cells
    (if border.left then "|" else "") ++ body ++
      (if ¬ sep && border.rigth then "|" else "")

/-- Renderer feature flags (`latex.go` lines 71-91). -/
structure Flags where
  completePage : Bool := false
  chapterTitle : Bool := false
  noParIndent : Bool := false
  skipLinks : Bool := false
  safelink : Bool := false
  toc : Bool := false
deriving Repr, DecidableEq

/-- The renderer options the rendering code reads (`Opts` of `latex.go`; the
`HtmlBlockHandler` is not modelled — the HTML cases fall through to their
nil-handler branch — and `Titled` is never read by the renderer). -/
structure Opts where
  flags : Flags := {}
  author : String := ""
  languages : String := ""
  envQuotation : String := ""
deriving Repr, DecidableEq

/-- `NewRenderer` defaults `EnvQuotation` to `"quotation"`. -/
def defaultOpts : Opts := { envQuotation := "quotation" }

/-- Modelled from the spec: `needSkipLink` is called by the `Link` case but
its definition is not among the provided sources.  Per the spec (§4.2,
Links), the suppressed-link branch is "triggered when the 'skip all links'
flag is set, or the destination uses an untrusted scheme under a 'safe links
only' policy"; the usual remote/mail/anchor schemes are modelled as
trusted. -/
def needSkipLink (f : Flags) (dest : String) : Bool :=
  f.skipLinks ||
    (f.safelink && !(startsWithL dest.data "http://".data ||
                     startsWithL dest.data "https://".data ||
                     startsWithL dest.data "ftp://".data ||
                     startsWithL dest.data "mailto:".data ||
                     startsWithL dest.data "#".data))

/-- `bf.WalkStatus` as returned by `RenderNode` (the `Terminate` status is
only used inside the column-spec sub-walk, which is modelled directly). -/
inductive WStatus where
  | goToNext
  | skipChildren
deriving Repr, DecidableEq

/-- The `headers` sectioning-command table (`latex.go` lines 113-120),
indexed by `node.Level - 1`. -/
def headers : List String :=
  ["chapter", "section", "subsection", "subsubsection", "paragraph", "subparagraph"]

/-- The `{arg}` groups `Env` appends after `\begin{env}`. -/
def envArgs : List String → String
  | [] => ""
  | a :: rest => "\x7b" ++ a ++ "\x7d" ++ envArgs rest

/-- List-environment selection of the `List` case (`latex.go` lines 485-491). -/
def listTypeStr (f : ListFlags) : String :=
  if f.definition then "description"
  else if f.ordered then "enumerate"
  else "itemize"

/-- The `Code` case (`latex.go` lines 283-302): inline math for a `"$$ "`
prefix, otherwise `\lstinline` with a delimiter chosen by `getDelimiter`
over the literal's bytes, or the error marker when none exists.  (Non-ASCII
runes contribute only values ≥ 128 both as UTF-8 bytes and as code points,
so mapping runes to code points preserves which delimiters are free.) -/
def renderCodeStr (lit : String) : String :=
  if startsWithL lit.data ("$$ ".data) then
    "$" ++ String.mk (lit.data.drop 3) ++ "$"
  else
    let d := getDelimiter (lit.data.map Char.toNat)
    if d ≠ 0 then
      "\\lstinline" ++ String.mk [Char.ofNat d] ++ lit ++ String.mk [Char.ofNat d]
    else
      "\\lstinline" ++ "!<RENDERING ERROR: no delimiter found>!"

/-- The `CodeBlock` case (`latex.go` lines 304-316). -/
def renderCodeBlockStr (info lit : String) : String :=
  let lang := languageAttr info.data
  if lang = "math".data then
    "\\[\n" ++ lit ++ "\\]\n\n"
  else
    "\\begin\x7blstlisting\x7d[language=" ++ String.mk lang ++ "]\n" ++ lit ++
      "\\end\x7blstlisting\x7d\n\n"

/-- Whether a node is a heading flagged as title block (the skip test of
`Render`'s walk callback, `latex.go` lines 797-800). -/
def isTitleblockHeading : Node → Bool
  | .heading _ tb _ _ => tb
  | _ => false

/-- The leaving-direction cases of `RenderNode` (`entering = false`).  These
never recurse.  Leaf node types are never visited on leaving by the walker;
their arms return the empty string.  `none` models the nil dereferences of
the `Paragraph`, `TableRow` and suppressed-`Link` cases. -/
def renderLeave (o : Opts) (pc : Ctx) (n : Node) : Option (String × WStatus) :=
  match n with
  | .document _ => some ("", .goToNext)
  | .blockQuote _ => some ("\\end\x7b" ++ o.envQuotation ++ "\x7d\n\n", .goToNext)
  | .code _ | .codeBlock _ _ | .hardbreak | .htmlBlock _ | .htmlSpan _
  | .horizontalRule | .softbreak | .text _ => some ("", .goToNext)
  | .del _ => some ("\x7d", .goToNext)
  | .emph _ => some ("\x7d", .goToNext)
  | .strong _ => some ("\x7d", .goToNext)
  | .heading lvl tb _ _ =>
    if tb then some ("", .goToNext)
    else some ("\x7d" ++ (if lvl = 1 ∨ lvl = 2 ∨ lvl = 3 then "\n" else " "), .goToNext)
  | .image _ _ _ => some ("", .skipChildren)
  | .item f _ => some ((if f.term then "] " else ""), .goToNext)
  | .link dest nid _ cs =>
    if needSkipLink o.flags dest then
      match cs with
      | [] => none  -- node.FirstChild is nil: reading its Type panics
      | [c] =>
        match c with
        | .text lit =>
          if lit = dest then
            -- identical sole text child (unreachable on leaving: the
            -- entering visit returned SkipChildren)
            some ("\\nolinkurl\x7b" ++ dest ++ "\x7d", .skipChildren)
          else some ("\\footnote\x7b\\nolinkurl\x7b" ++ dest ++ "\x7d\x7d", .goToNext)
        | _ => some ("\\footnote\x7b\\nolinkurl\x7b" ++ dest ++ "\x7d\x7d", .goToNext)
      | _ => some ("\\footnote\x7b\\nolinkurl\x7b" ++ dest ++ "\x7d\x7d", .goToNext)
    else if nid ≠ 0 then some ("", .goToNext)
    else some ("\x7d", .goToNext)
  | .list f isFn _ =>
    if isFn then some ("", .skipChildren)
    else some ("\\end\x7b" ++ listTypeStr f ++ "\x7d\n\n", .goToNext)
  | .paragraph _ =>
    match pc.parent with
    | none => none  -- node.Parent is nil: reading its Type panics
    | some pm =>
      if !(pm.isItem && pm.listTerm) then
        some ("\n" ++ (if pc.hasNext then "\n" else ""), .goToNext)
      else some ("", .goToNext)
  | .table b _ =>
    some ((if b.bottom then "\\hline\n" else "") ++
      "\\end\x7btabular\x7d\n\\end\x7bcenter\x7d\n\n", .goToNext)
  | .tableBody _ => some ("", .goToNext)
  | .tableCell hdr _ _ _ _ =>
    some ((if hdr then "\x7d" else "") ++ (if pc.hasNext then " & " else ""), .goToNext)
  | .tableHead _ => some ("\\hline\n", .goToNext)
  | .tableRow isLast _ =>
    match pc.parent with
    | none => none  -- node.Parent is nil
    | some pm =>
      match pc.grand with
      | none => none  -- node.Parent.Parent is nil
      | some gm =>
        if gm.borderRow then
          if pm.isTableBody then
            if isLast then some (" \\\\\n", .goToNext)
            else some (" \\\\ \\hline\n", .goToNext)
          else some (" \\\\\n", .goToNext)
        else some (" \\\\\n", .goToNext)

theorem dec_fnChildren (dest : String) (nid : Nat) (f : Node) (cs : List Node) :
    3 * weightL f.children + 2 < 3 * weight (.link dest nid (some f) cs) := by
  have h := weightL_children_lt f
  simp [weight, weightOpt]
  omega

theorem dec_bqEffM (n : Node) : 3 * weightL (bqEff n) + 2 < 3 * weight n + 1 := by
  have h := weightL_bqEff_lt n
  omega

theorem dec_consHead (n : Node) (rest : List Node) :
    3 * weight n + 1 < 3 * weightL (n :: rest) + 2 := by
  simp [weightL]
  omega

theorem dec_consTail (n : Node) (rest : List Node) :
    3 * weightL rest + 2 < 3 * weightL (n :: rest) + 2 := by
  have h := weight_pos n
  simp [weightL]
  omega

mutual

/-- The entering-direction cases of `RenderNode` (`entering = true`),
threading the escape state and returning the possibly mutated node (block
quote attribution edit; footnote subtree rendered by the recursive walk of
the `Link` case).  `none` models a panic. -/
def renderEnter (o : Opts) (_pc : Ctx) (st : EscState) (n : Node) :
    Option (String × EscState × Node × WStatus) :=
  match n with
  | .document cs => some ("", st, .document cs, .goToNext)
  | .blockQuote cs =>
    match bqExtract cs with
    | none => none
    | some (args, cs') =>
      some ("\\begin\x7b" ++ o.envQuotation ++ "\x7d" ++ envArgs args ++ "\n",
        st, .blockQuote cs', .goToNext)
  | .code lit => some (renderCodeStr lit, st, .code lit, .goToNext)
  | .codeBlock info lit =>
    some (renderCodeBlockStr info lit, st, .codeBlock info lit, .goToNext)
  | .del cs => some ("\\sout\x7b", st, .del cs, .goToNext)
  | .emph cs => some ("\\emph\x7b", st, .emph cs, .goToNext)
  | .hardbreak => some ("~\\\\\n", st, .hardbreak, .goToNext)
  | .heading lvl tb cfg cs =>
    if tb then some ("", st, .heading lvl tb cfg cs, .goToNext)
    else if lvl = 0 then none  -- n := Level - 1 is -1: headers[-1] panics
    else if lvl - 1 < 6 then
      let hdr := headers.getD (lvl - 1) ""
      let cfgTxt :=
        if cfg.length > 0 then
          if cfg = "*" ∨ cfg = "**" then
            match cs with
            | .text lit :: _ =>
              "*[" ++ lit ++
                (if cfg = "*" then
                  "]\x7b" ++ lit ++ "\x7d\n\\addcontentsline\x7btoc\x7d\x7b" ++ hdr ++ "\x7d"
                else "]")
            | _ => ""
          else ""
        else ""
      some ("\\" ++ hdr ++ cfgTxt ++ "\x7b", st, .heading lvl tb cfg cs, .goToNext)
    else some ("\\textbf\x7b", st, .heading lvl tb cfg cs, .goToNext)
  | .htmlBlock lit => some ("", st, .htmlBlock lit, .goToNext)  -- nil HtmlBlockHandler
  | .htmlSpan lit => some ("", st, .htmlSpan lit, .goToNext)    -- nil HtmlBlockHandler
  | .horizontalRule => some ("\\HRule\x7b\x7d\n", st, .horizontalRule, .goToNext)
  | .image dest title cs =>
    if hasPfxCaseInsensitive dest.data ("http://".data) ||
       hasPfxCaseInsensitive dest.data ("https://".data) then
      some ("\\url\x7b" ++ dest ++ "\x7d", st, .image dest title cs, .skipChildren)
    else
      let destS := String.mk (stripExt dest.data)
      some ((match title with | some _ => "\\begin\x7bfigure\x7d[!ht]\n" | none => "") ++
        "\\begin\x7bcenter\x7d\n" ++
        "\\includegraphics[max width=\\textwidth, max height=\\textheight]\x7b" ++
        destS ++ "\x7d\n\\end\x7bcenter\x7d\n" ++
        (match title with
         | some t => "\\caption\x7b" ++ t ++ "\x7d\n\\end\x7bfigure\x7d\n"
         | none => ""),
        st, .image dest title cs, .skipChildren)
  | .item f cs =>
    some ((if f.term then "\\item [" else if !f.definition then "\\item " else ""),
      st, .item f cs, .goToNext)
  | .link dest nid fn cs =>
    if needSkipLink o.flags dest then
      match cs with
      | [] => none  -- node.FirstChild is nil: reading its Type panics
      | [c] =>
        match c with
        | .text lit =>
          if lit = dest then
            some ("\\nolinkurl\x7b" ++ dest ++ "\x7d", st, .link dest nid fn cs, .skipChildren)
          else some ("", st, .link dest nid fn cs, .goToNext)
        | _ => some ("", st, .link dest nid fn cs, .goToNext)
      | _ => some ("", st, .link dest nid fn cs, .goToNext)
    else if nid ≠ 0 then
      match fn with
      | none => none  -- footnoteNode is nil: Walk dereferences it
      | some f =>
        -- `footnoteNode.Walk` renders the footnote's children (skipping the
        -- footnote node itself) through the shared renderer state into a
        -- local `w := &bytes.Buffer{}` that shadows the sink; the buffer and
        -- the closing `}` are then written to that same buffer and
        -- discarded, so only `\footnote{` reaches the output.
        match walkList o false (Node.meta f) none st f.children with
        | none => none
        | some (_buf, st', fcs') =>
          some ("\\footnote\x7b", st', .link dest nid (some (f.withChildren fcs')) cs, .goToNext)
    else
      some ("\\href\x7b" ++ dest ++ "\x7d\x7b", st, .link dest nid fn cs, .goToNext)
  | .list f isFn cs =>
    if isFn then some ("", st, .list f isFn cs, .skipChildren)
    else some ("\\begin\x7b" ++ listTypeStr f ++ "\x7d\n", st, .list f isFn cs, .goToNext)
  | .paragraph cs => some ("", st, .paragraph cs, .goToNext)
  | .softbreak => some ("", st, .softbreak, .goToNext)
  | .strong cs => some ("\\textbf\x7b", st, .strong cs, .goToNext)
  | .table b cs =>
    some ("\\begin\x7bcenter\x7d\n\\begin\x7btabular\x7d\x7b" ++ colSpec b cs ++ "\x7d\n" ++
      (if b.top then "\\hline\n" else ""), st, .table b cs, .goToNext)
  | .tableBody cs => some ("", st, .tableBody cs, .goToNext)
  | .tableCell hdr l a op cs =>
    some ((if hdr then "\\textbf\x7b" else ""), st, .tableCell hdr l a op cs, .goToNext)
  | .tableHead cs => some ("", st, .tableHead cs, .goToNext)
  | .tableRow l cs => some ("", st, .tableRow l cs, .goToNext)
  | .text lit =>
    if lit.data.length > 0 then
      match Escape st lit with
      | none => none
      | some (out, st') => some (out, st', .text lit, .goToNext)
    else some ("", st, .text lit, .goToNext)
  termination_by 3 * weight n
  decreasing_by
    exact dec_fnChildren _ _ _ _

/-- One full visit of a node by the tree walker (`bf.Node.Walk` driving
`RenderNode`): the entering visit, the walk of the (effective) children
unless skipped or a leaf, and the leaving visit for containers.  When `sTB`
is set, title-block headings are skipped entirely (the guard of `Render`'s
walk callback). -/
def walkNode (o : Opts) (sTB : Bool) (pc : Ctx) (st : EscState) (n : Node) :
    Option (String × EscState × Node) :=
  if sTB && isTitleblockHeading n then some ("", st, n)
  else
    match renderEnter o pc st n with
    | none => none
    | some (o1, st1, n1, ws) =>
      if ws = .skipChildren || !n.isContainer then some (o1, st1, n1)
      else
        match walkList o sTB (Node.meta n) pc.parent st1 (bqEff n) with
        | none => none
        | some (o2, st2, cs2) =>
          match renderLeave o pc (n1.withChildren cs2) with
          | none => none
          | some (o3, _) => some (o1 ++ o2 ++ o3, st2, n1.withChildren cs2)
  termination_by 3 * weight n + 1
  decreasing_by
    · omega
    · exact dec_bqEffM _

/-- The walker over a sibling list: each node's context records its parent's
summary, its grandparent's summary, and whether a next sibling exists. -/
def walkList (o : Opts) (sTB : Bool) (pmeta : NMeta) (gmeta : Option NMeta)
    (st : EscState) : List Node → Option (String × EscState × List Node)
  | [] => some ("", st, [])
  | n :: rest =>
    match walkNode o sTB { parent := some pmeta, grand := gmeta, hasNext := !rest.isEmpty } st n with
    | none => none
    | some (o1, st1, n1) =>
      match walkList o sTB pmeta gmeta st1 rest with
      | none => none
      | some (o2, st2, rest') => some (o1 ++ o2, st2, n1 :: rest')
  termination_by ns => 3 * weightL ns + 2
  decreasing_by
    · exact dec_consHead _ _
    · exact dec_consTail _ _

end

/-- A walk rooted at `n` with the document-level title-block guard, default
options and a fresh renderer state (the body walk of `Render`). -/
def walk0 (n : Node) : Option (String × EscState × Node) :=
  walkNode defaultOpts true rootCtx st0 n

-- sanity checks against the renderer's behavior
example :
    walk0 (.document [.paragraph [.text "foo"]]) =
      some ("foo\n", st0, .document [.paragraph [.text "foo"]]) := by
  simp [walk0, walkNode, walkList, renderEnter, renderLeave, Escape, escChars,
    latexEscaper, bqEff, Node.children, Node.meta, Node.isContainer, Node.withChildren,
    isTitleblockHeading, defaultOpts, st0]

example :
    walk0 (.document [.heading 1 false "" [.text "foo"]]) =
      some ("\\chapter\x7bfoo\x7d\n", st0, .document [.heading 1 false "" [.text "foo"]]) := by
  simp [walk0, walkNode, walkList, renderEnter, renderLeave, Escape, escChars,
    latexEscaper, bqEff, Node.children, Node.meta, Node.isContainer, Node.withChildren,
    isTitleblockHeading, defaultOpts, st0, headers]

example :
    walk0 (.document [.blockQuote [.paragraph [.text "Quote"]]]) =
      some ("\\begin\x7bquotation\x7d\nQuote\n\\end\x7bquotation\x7d\n\n", st0,
        .document [.blockQuote [.paragraph [.text "Quote"]]]) := by
  simp [walk0, walkNode, walkList, renderEnter, renderLeave, Escape, escChars,
    latexEscaper, bqEff, bqExtract, lastIdx, startsWithL, Node.children, Node.meta,
    Node.isContainer, Node.withChildren, isTitleblockHeading, defaultOpts, st0, envArgs]

/-- The 4-column test table (alignments default/left/center/right, default
borders, no per-cell options), parameterized by its cell texts. -/
def table4 (h1 h2 h3 h4 b1 b2 b3 b4 : String) : Node :=
  .table {}
    [.tableHead [.tableRow false
        [.tableCell true false .default none [.text h1],
         .tableCell true false .left none [.text h2],
         .tableCell true false .center none [.text h3],
         .tableCell true true .right none [.text h4]]],
     .tableBody [.tableRow true
        [.tableCell false false .default none [.text b1],
         .tableCell false false .left none [.text b2],
         .tableCell false false .center none [.text b3],
         .tableCell false true .right none [.text b4]]]]

example :
    walk0 (table4 "default" "left" "center" "right" "foo" "bar" "baz" "qux") =
      some ("\\begin\x7bcenter\x7d\n\\begin\x7btabular\x7d\x7bllcr\x7d\n" ++
        "\\textbf\x7bdefault\x7d & \\textbf\x7bleft\x7d & \\textbf\x7bcenter\x7d & \\textbf\x7bright\x7d \\\\\n" ++
        "\\hline\n" ++
        "foo & bar & baz & qux \\\\\n" ++
        "\\end\x7btabular\x7d\n\\end\x7bcenter\x7d\n\n", st0,
        table4 "default" "left" "center" "right" "foo" "bar" "baz" "qux") := by
  simp [walk0, walkNode, walkList, renderEnter, renderLeave, Escape, escChars,
    latexEscaper, bqEff, Node.children, Node.meta, Node.isContainer, Node.withChildren,
    isTitleblockHeading, defaultOpts, st0, table4, colSpec, findCellsL, findCellsN,
    cellsLoop, cellColItem, cellAlignment, Node.cellOpts, Node.cellIsLast, Node.cellAlign]

/-- First preamble block of `RenderHeader` (`latex.go`). -/
def preambleA : String :=
  "\\documentclass\x7barticle\x7d\n\n\\usepackage[utf8]\x7binputenc\x7d\n\\usepackage[T1]\x7bfontenc\x7d\n\\usepackage\x7blmodern\x7d\n\\usepackage\x7bmarvosym\x7d\n\\usepackage\x7btextcomp\x7d\n\\DeclareUnicodeCharacter\x7b20AC\x7d\x7b\\EUR\x7b\x7d\x7d\n\\DeclareUnicodeCharacter\x7b2260\x7d\x7b\\neq\x7d\n\\DeclareUnicodeCharacter\x7b2264\x7d\x7b\\leq\x7d\n\\DeclareUnicodeCharacter\x7b2265\x7d\x7b\\geq\x7d\n\\DeclareUnicodeCharacter\x7b22C5\x7d\x7b\\cdot\x7d\n\\DeclareUnicodeCharacter\x7bA0\x7d\x7b~\x7d\n\\DeclareUnicodeCharacter\x7bB1\x7d\x7b\\pm\x7d\n\\DeclareUnicodeCharacter\x7bD7\x7d\x7b\\times\x7d\n\n\\usepackage\x7bamsmath\x7d\n\\usepackage[export]\x7badjustbox\x7d % loads also graphicx\n\\usepackage\x7blistings\x7d\n\\usepackage[margin=1in]\x7bgeometry\x7d\n\\usepackage\x7bverbatim\x7d\n\\usepackage[normalem]\x7bulem\x7d\n\\usepackage\x7bhyperref\x7d\n\n\\lstset\x7b\n\tnumbers=left,\n\tbreaklines=true,\n\txleftmargin=2\\baselineskip,\n\tshowstringspaces=false,\n\tbasicstyle=\\ttfamily,\n\tkeywordstyle=\\bfseries\\color\x7bgreen!40!black\x7d,\n\tcommentstyle=\\itshape\\color\x7bpurple!40!black\x7d,\n\tstringstyle=\\color\x7borange\x7d,\n\tnumberstyle=\\ttfamily,\n\tliterate=\n\t\x7bá\x7d\x7b\x7b\\'a\x7d\x7d1 \x7bé\x7d\x7b\x7b\\'e\x7d\x7d1 \x7bí\x7d\x7b\x7b\\'i\x7d\x7d1 \x7bó\x7d\x7b\x7b\\'o\x7d\x7d1 \x7bú\x7d\x7b\x7b\\'u\x7d\x7d1\n\t\x7bÁ\x7d\x7b\x7b\\'A\x7d\x7d1 \x7bÉ\x7d\x7b\x7b\\'E\x7d\x7d1 \x7bÍ\x7d\x7b\x7b\\'I\x7d\x7d1 \x7bÓ\x7d\x7b\x7b\\'O\x7d\x7d1 \x7bÚ\x7d\x7b\x7b\\'U\x7d\x7d1\n\t"

/-- The grave-accent literate lines (written as an interpreted Go string). -/
def preambleB : String :=
  "\x7bà\x7d\x7b\x7b\\`a\x7d\x7d1 \x7bè\x7d\x7b\x7b\\`e\x7d\x7d1 \x7bì\x7d\x7b\x7b\\`i\x7d\x7d1 \x7bò\x7d\x7b\x7b\\`o\x7d\x7d1 \x7bù\x7d\x7b\x7b\\`u\x7d\x7d1\n\t\x7bÀ\x7d\x7b\x7b\\`A\x7d\x7d1 \x7bÈ\x7d\x7b\x7b\\'E\x7d\x7d1 \x7bÌ\x7d\x7b\x7b\\`I\x7d\x7d1 \x7bÒ\x7d\x7b\x7b\\`O\x7d\x7d1 \x7bÙ\x7d\x7b\x7b\\`U\x7d\x7d1"

/-- The remainder of the `lstset` block. -/
def preambleC : String :=
  "\n\t\x7bä\x7d\x7b\x7b\\\"a\x7d\x7d1 \x7bë\x7d\x7b\x7b\\\"e\x7d\x7d1 \x7bï\x7d\x7b\x7b\\\"i\x7d\x7d1 \x7bö\x7d\x7b\x7b\\\"o\x7d\x7d1 \x7bü\x7d\x7b\x7b\\\"u\x7d\x7d1\n\t\x7bÄ\x7d\x7b\x7b\\\"A\x7d\x7d1 \x7bË\x7d\x7b\x7b\\\"E\x7d\x7d1 \x7bÏ\x7d\x7b\x7b\\\"I\x7d\x7d1 \x7bÖ\x7d\x7b\x7b\\\"O\x7d\x7d1 \x7bÜ\x7d\x7b\x7b\\\"U\x7d\x7d1\n\t\x7bâ\x7d\x7b\x7b\\^a\x7d\x7d1 \x7bê\x7d\x7b\x7b\\^e\x7d\x7d1 \x7bî\x7d\x7b\x7b\\^i\x7d\x7d1 \x7bô\x7d\x7b\x7b\\^o\x7d\x7d1 \x7bû\x7d\x7b\x7b\\^u\x7d\x7d1\n\t\x7bÂ\x7d\x7b\x7b\\^A\x7d\x7d1 \x7bÊ\x7d\x7b\x7b\\^E\x7d\x7d1 \x7bÎ\x7d\x7b\x7b\\^I\x7d\x7d1 \x7bÔ\x7d\x7b\x7b\\^O\x7d\x7d1 \x7bÛ\x7d\x7b\x7b\\^U\x7d\x7d1\n\t\x7bœ\x7d\x7b\x7b\\oe\x7d\x7d1 \x7bŒ\x7d\x7b\x7b\\OE\x7d\x7d1 \x7bæ\x7d\x7b\x7b\\ae\x7d\x7d1 \x7bÆ\x7d\x7b\x7b\\AE\x7d\x7d1 \x7bß\x7d\x7b\x7b\\ss\x7d\x7d1\n\t\x7bű\x7d\x7b\x7b\\H\x7bu\x7d\x7d\x7d1 \x7bŰ\x7d\x7b\x7b\\H\x7bU\x7d\x7d\x7d1 \x7bő\x7d\x7b\x7b\\H\x7bo\x7d\x7d\x7d1 \x7bŐ\x7d\x7b\x7b\\H\x7bO\x7d\x7d\x7d1\n\t\x7bç\x7d\x7b\x7b\\c c\x7d\x7d1 \x7bÇ\x7d\x7b\x7b\\c C\x7d\x7d1 \x7bø\x7d\x7b\x7b\\o\x7d\x7d1 \x7bå\x7d\x7b\x7b\\r a\x7d\x7d1 \x7bÅ\x7d\x7b\x7b\\r A\x7d\x7d1\n\t\x7b€\x7d\x7b\x7b\\EUR\x7d\x7d1 \x7b£\x7d\x7b\x7b\\pounds\x7d\x7d1\n\x7d\n"

/-- The csquotes/hypersetup block, up to the embedded blackfriday version. -/
def preambleD : String :=
  "\\usepackage\x7bcsquotes\x7d\n\n\\hypersetup\x7bcolorlinks,\n\tcitecolor=black,\n\tfilecolor=black,\n\tlinkcolor=black,\n\tlinktoc=page,\n\turlcolor=black,\n\tpdfstartview=FitH,\n\tbreaklinks=true,\n\tpdfauthor=\x7bBlackfriday Markdown Processor v"

/-- `bf.Version` of the blackfriday collaborator. -/
def bfVersion : String := "2.0"

/-- The block after the version: hypersetup close, `\HRule`, parskip. -/
def preambleE : String :=
  "\x7d,\n\x7d\n\n\\newcommand\x7b\\HRule\x7d\x7b\\rule\x7b\\linewidth\x7d\x7b0.5mm\x7d\x7d\n\\addtolength\x7b\\parskip\x7d\x7b0.5\\baselineskip\x7d\n"

mutual

/-- The walk of `getTitle` (`latex.go` lines 632-647): find the first
title-block heading in document order, render it (the heading node included,
which emits nothing itself) with a scratch `Renderer{}` — zero options, hence
an *empty* quotation-environment name — from a fresh state into a buffer, and
terminate the walk.  Returns the rendered title when found, together with the
updated tree (rendering may mutate block quotes inside the heading). -/
def gtN : Node → Option (Option String × Node)
  | .heading lvl tb cfg cs =>
    if tb then
      match walkNode {} false rootCtx st0 (.heading lvl tb cfg cs) with
      | none => none
      | some (out, _, h') => some (some out, h')
    else
      match gtL cs with
      | none => none
      | some (r, cs') => some (r, .heading lvl tb cfg cs')
  | .document cs =>
    match gtL cs with
    | none => none
    | some (r, cs') => some (r, .document cs')
  | .blockQuote cs =>
    match gtL cs with
    | none => none
    | some (r, cs') => some (r, .blockQuote cs')
  | .del cs =>
    match gtL cs with
    | none => none
    | some (r, cs') => some (r, .del cs')
  | .emph cs =>
    match gtL cs with
    | none => none
    | some (r, cs') => some (r, .emph cs')
  | .image d t cs =>
    match gtL cs with
    | none => none
    | some (r, cs') => some (r, .image d t cs')
  | .item f cs =>
    match gtL cs with
    | none => none
    | some (r, cs') => some (r, .item f cs')
  | .link d nid fn cs =>
    match gtL cs with
    | none => none
    | some (r, cs') => some (r, .link d nid fn cs')
  | .list f ifl cs =>
    match gtL cs with
    | none => none
    | some (r, cs') => some (r, .list f ifl cs')
  | .paragraph cs =>
    match gtL cs with
    | none => none
    | some (r, cs') => some (r, .paragraph cs')
  | .strong cs =>
    match gtL cs with
    | none => none
    | some (r, cs') => some (r, .strong cs')
  | .table b cs =>
    match gtL cs with
    | none => none
    | some (r, cs') => some (r, .table b cs')
  | .tableBody cs =>
    match gtL cs with
    | none => none
    | some (r, cs') => some (r, .tableBody cs')
  | .tableCell h l a op cs =>
    match gtL cs with
    | none => none
    | some (r, cs') => some (r, .tableCell h l a op cs')
  | .tableHead cs =>
    match gtL cs with
    | none => none
    | some (r, cs') => some (r, .tableHead cs')
  | .tableRow l cs =>
    match gtL cs with
    | none => none
    | some (r, cs') => some (r, .tableRow l cs')
  | n => some (none, n)

def gtL : List Node → Option (Option String × List Node)
  | [] => some (none, [])
  | n :: rest =>
    match gtN n with
    | none => none
    | some (some s, n') => some (some s, n' :: rest)  -- bf.Terminate: stop
    | some (none, n') =>
      match gtL rest with
      | none => none
      | some (r, rest') => some (r, n' :: rest')

end

mutual

/-- `hasFigures` (`latex.go` lines 649-659): does the tree contain an image
node with a non-nil title? -/
def hasFiguresN : Node → Bool
  | .image _ title cs =>
    (match title with | some _ => true | none => false) || hasFiguresL cs
  | .document cs | .blockQuote cs | .del cs | .emph cs
  | .heading _ _ _ cs | .item _ cs | .link _ _ _ cs
  | .list _ _ cs | .paragraph cs | .strong cs | .table _ cs
  | .tableBody cs | .tableCell _ _ _ _ cs | .tableHead cs | .tableRow _ cs => hasFiguresL cs
  | _ => false

def hasFiguresL : List Node → Bool
  | [] => false
  | n :: rest => hasFiguresN n || hasFiguresL rest

end

/-- `RenderHeader` (`latex.go` lines 661-785).  Note that `title` is only
assigned inside the `CompletePage` branch; in the `ChapterTitle` branch it
still holds its zero value. -/
def renderHeader (o : Opts) (ast : Node) : Option (String × Node) :=
  let title := ""  -- var title string
  if o.flags.completePage then
    match gtN ast with
    | none => none
    | some (tOpt, ast') =>
      let title := match tOpt with | some t => t | none => ""
      let s :=
        preambleA ++ preambleB ++ preambleC ++
        (if o.languages ≠ "" then
          "\n\\usepackage[" ++ o.languages ++ "]\x7bbabel\x7d\n" else "") ++
        preambleD ++ bfVersion ++ preambleE ++
        (if o.flags.noParIndent then "\\parindent=0pt\n" else "") ++
        (if title ≠ "" then
          "\n\\title\x7b" ++ title ++ "\x7d\n\\author\x7b" ++ o.author ++ "\x7d\n" else "") ++
        "\n\\begin\x7bdocument\x7d\n" ++
        (if title ≠ "" then
          "\n\\maketitle\n" ++
          (if o.flags.toc then
            "\\vfill\n\\thispagestyle\x7bempty\x7d\n\n\\tableofcontents\n" ++
            (if hasFiguresN ast' then "\\listoffigures\n" else "") ++
            "\\clearpage\n"
          else "")
        else "") ++
        "\n\n"
      some (s, ast')
  else if o.flags.chapterTitle && trimSpace title ≠ "" then
    some ("\\chapter\x7b" ++ title ++ "\x7d\n\n", ast)
  else
    some ("", ast)

/-- `RenderFooter` (`latex.go` lines 787-792). -/
def renderFooter (o : Opts) : String :=
  if o.flags.completePage then "\\end\x7bdocument\x7d\n" else ""

/-- `Render` (`latex.go` lines 794-805): header, the body walk skipping
title-block headings, and the footer, starting from the zero quote state of a
fresh `Renderer` instance.  Returns the output bytes and the (possibly
mutated) tree. -/
def Render (o : Opts) (ast : Node) : Option (String × Node) :=
  match renderHeader o ast with
  | none => none
  | some (h, ast1) =>
    match walkNode o true rootCtx st0 ast1 with
    | none => none
    | some (b, _, ast2) => some (h ++ b ++ renderFooter o, ast2)

theorem strMk_append (xs ys : List Char) :
    String.mk xs ++ String.mk ys = String.mk (xs ++ ys) := rfl

theorem strMk_data (s : String) : String.mk s.data = s := rfl

theorem escChars_plain (cs : List Char) (h : ∀ c ∈ cs, latexEscaper c = none) :
    ∀ prev st, escChars prev st cs = some (String.mk cs, st) := by
  induction cs with
  | nil => intro prev st; rfl
  | cons c rest ih =>
    intro prev st
    have hc := h c (by simp)
    have hrest : ∀ x ∈ rest, latexEscaper x = none := fun x hx => h x (by simp [hx])
    simp [escChars, hc, ih hrest, strMk_append]

theorem Escape_plain (s : String) (h : ∀ c ∈ s.data, latexEscaper c = none) (st : EscState) :
    Escape st s = some (s, st) := by
  unfold Escape
  rw [escChars_plain s.data h none st, strMk_data]

theorem renderEnter_text_plain (s : String) (h : ∀ c ∈ s.data, latexEscaper c = none)
    (o : Opts) (pc : Ctx) (st : EscState) :
    renderEnter o pc st (.text s) = some (s, st, .text s, .goToNext) := by
  by_cases hl : s.data.length > 0
  · simp [renderEnter, hl, Escape_plain s h st]
    intro h0
    exfalso
    have h1 : s.data.length = 0 := h0
    omega
  · have hs : s = "" := by
      cases s with
      | mk d =>
        cases d with
        | nil => rfl
        | cons a l => simp at hl
    subst hs
    simp [renderEnter]

theorem strData_mk (l : List Char) : (String.mk l).data = l := rfl

/-- C2: the claim says escaping `"foo"` from the closed state yields an
opening curly quote, `foo`, and a closing curly quote.  In the code the `"`
rune has no `latexEscaper` entry, so the copy loop never stops at it and the
`case '"'` arm (which moreover writes U+201C in both of its branches) is
unreachable: straight double quotes pass through unchanged and the quote
state is untouched. -/
theorem C2_quote_passthrough :
    latexEscaper '"' = none ∧
    Escape st0 "\"foo\"" = some ("\"foo\"", st0) ∧
    "\"foo\"" ≠ "“foo”" := by
  refine ⟨rfl, rfl, by decide⟩

/-- C10: the claim says `Escape` is total and the look-ahead at the rune
after an apostrophe stays in bounds.  The guard `i < len(text)` cannot bound
`text[i+1]`: escaping `'a'` from the zero state reaches the final apostrophe
with `quoted` and `quoteOpen` set and reads one rune past the end (a Go
index-out-of-range panic, modelled as `none`); the same happens for a run
ending in `'` when the open-quote state is carried in from an earlier run. -/
theorem C10_escape_oob :
    Escape st0 "'a'" = none ∧ Escape ⟨true, true⟩ "'" = none := ⟨rfl, rfl⟩

/-- C7 counterexample: the claim says every apostrophe yields exactly one
glyph.  In `'a'b` the second apostrophe (open state, followed by a
non-whitespace, non-period rune) matches no case of the look-ahead switch and
emits nothing: the output has a single quote glyph for two apostrophes. -/
theorem C7_counterexample :
    Escape st0 "'a'b" = some ("‘ab", st0) ∧
    ("‘ab".data.filter (fun c => c = '‘' ∨ c = '’')).length = 1 ∧
    "‘ab".data.length ≠ "'a'b".data.length := by
  refine ⟨rfl, by decide, by decide⟩

/-- C7 as amended: with no quote open, an apostrophe preceded by
start-of-run or whitespace/period opens (one `‘`), any other apostrophe
closes (one `’`); with a single quote open, an apostrophe followed by
whitespace/period closes (one `’`) but an apostrophe followed by any other
rune emits *no* glyph (and one at the very end of the run panics, see C10). -/
theorem C7_amended (a b : Char) (ha : latexEscaper a = none) (hb : latexEscaper b = none) :
    Escape st0 (String.mk [a, '\'', b]) =
      some (String.mk [a] ++ (if a ∈ wsDot then "‘" else "’") ++ String.mk [b],
        if a ∈ wsDot then (⟨true, true⟩ : EscState) else st0) ∧
    Escape st0 (String.mk ['\'', a, '\'', b]) =
      some ("‘" ++ String.mk [a] ++ (if b ∈ wsDot then "’" else "") ++ String.mk [b], st0) := by
  have hq : latexEscaper '\'' = some "" := rfl
  constructor
  · by_cases hw : a ∈ wsDot
    · simp [Escape, escChars, escSpecial, ha, hb, hq, hw, st0, strMk_append, strData_mk,
        String.append_assoc]
    · simp [Escape, escChars, escSpecial, ha, hb, hq, hw, st0, strMk_append, strData_mk,
        String.append_assoc]
  · by_cases hw : b ∈ wsDot
    · simp [Escape, escChars, escSpecial, ha, hb, hq, hw, st0, strMk_append, strData_mk,
        String.append_assoc]
    · simp [Escape, escChars, escSpecial, ha, hb, hq, hw, st0, strMk_append, strData_mk,
        String.append_assoc]

theorem C7_amended_witness :
    Escape st0 "x'y" = some ("x’y", st0) ∧
    Escape st0 "'x'y" = some ("‘xy", st0) := by
  have h := C7_amended 'x' 'y' rfl rfl
  simp [wsDot] at h
  exact ⟨h.1, h.2⟩

/-- The footnote definition node of the C1 evaluation: an item whose
children are a paragraph with the text `bar`. -/
def fnItem : Node := .item {} [.paragraph [.text "bar"]]

/-- C1: the claim says entering a footnote-reference link writes
`\footnote{`, the recursively rendered footnote body (via a scratch buffer),
and a closing brace to the output sink.  In the code the scratch buffer
`w := &bytes.Buffer{}` *shadows* the sink parameter `w`, so the spliced body
(`w.Write(w.Bytes())`) and the closing `WriteString(w, "}")` go into the
buffer itself, which is then discarded: only `\footnote{` (written before
the shadowing declaration) reaches the sink, and no closing brace is ever
emitted. -/
theorem C1_footnote_lost :
    walk0 (.link "x" 1 (some fnItem) []) =
      some ("\\footnote\x7b", st0, .link "x" 1 (some fnItem) []) ∧
    ("\\footnote\x7b".data.contains '\x7d') = false ∧
    "\\footnote\x7b" ≠ "\\footnote\x7bbar\n\x7d" := by
  refine ⟨?_, by decide, by decide⟩
  simp [walk0, walkNode, walkList, renderEnter, renderLeave, Escape, escChars,
    latexEscaper, bqEff, Node.children, Node.meta, Node.isContainer, Node.withChildren,
    isTitleblockHeading, defaultOpts, st0, fnItem, needSkipLink, startsWithL]

/-- The C3 evaluation document: a title-block heading with text `T` followed
by a body paragraph. -/
def tbDoc : Node := .document [.heading 1 true "" [.text "T"], .paragraph [.text "body"]]

/-- C3: the claim says that with `ChapterTitle` set (and `CompletePage`
unset) a document with a non-blank title-block title renders a
`\chapter{...}` heading.  In `RenderHeader` the `title` variable is only
assigned inside the `CompletePage` branch, so in the `ChapterTitle` branch
`strings.TrimSpace(title)` is always empty and the chapter heading is never
emitted: the header output is empty. -/
theorem C3_chapter_never :
    renderHeader { flags := { chapterTitle := true }, envQuotation := "quotation" } tbDoc =
      some ("", tbDoc) ∧
    ("" : String) ≠ "\\chapter\x7bT\x7d\n\n" := by
  refine ⟨rfl, by decide⟩

/-- C8 counterexample: the claim maps level 1 to `\section`, but the
`headers` table starts at `chapter`: a level-1 heading renders as
`\chapter{...}` with a trailing newline. -/
theorem C8_counterexample :
    walk0 (.heading 1 false "" [.text "foo"]) =
      some ("\\chapter\x7bfoo\x7d\n", st0, .heading 1 false "" [.text "foo"]) ∧
    "\\chapter\x7bfoo\x7d\n" ≠ "\\section\x7bfoo\x7d\n" := by
  refine ⟨?_, by decide⟩
  simp [walk0, walkNode, walkList, renderEnter, renderLeave, Escape, escChars,
    latexEscaper, bqEff, Node.children, Node.meta, Node.isContainer, Node.withChildren,
    isTitleblockHeading, defaultOpts, st0, headers]

/-- C8 as amended: the heading level map is shifted one step down from the
claim's: level 1 → `\chapter`, 2 → `\section`, 3 → `\subsection` (newline
after the closing brace for levels 1-3), 4 → `\subsubsection`,
5 → `\paragraph`, 6 → `\subparagraph` and 7+ → `\textbf` (space after the
closing brace, no newline, for levels 4 and up). -/
theorem C8_amended (s : String) (h : ∀ c ∈ s.data, latexEscaper c = none) :
    (walk0 (.heading 1 false "" [.text s]) =
      some ("\\chapter\x7b" ++ s ++ "\x7d\n", st0, .heading 1 false "" [.text s])) ∧
    (walk0 (.heading 2 false "" [.text s]) =
      some ("\\section\x7b" ++ s ++ "\x7d\n", st0, .heading 2 false "" [.text s])) ∧
    (walk0 (.heading 3 false "" [.text s]) =
      some ("\\subsection\x7b" ++ s ++ "\x7d\n", st0, .heading 3 false "" [.text s])) ∧
    (walk0 (.heading 4 false "" [.text s]) =
      some ("\\subsubsection\x7b" ++ s ++ "\x7d ", st0, .heading 4 false "" [.text s])) ∧
    (walk0 (.heading 5 false "" [.text s]) =
      some ("\\paragraph\x7b" ++ s ++ "\x7d ", st0, .heading 5 false "" [.text s])) ∧
    (walk0 (.heading 6 false "" [.text s]) =
      some ("\\subparagraph\x7b" ++ s ++ "\x7d ", st0, .heading 6 false "" [.text s])) ∧
    (∀ lvl, 7 ≤ lvl →
      walk0 (.heading lvl false "" [.text s]) =
        some ("\\textbf\x7b" ++ s ++ "\x7d ", st0, .heading lvl false "" [.text s])) := by
  refine ⟨?_, ?_, ?_, ?_, ?_, ?_, ?_⟩
  · simp [walk0, walkNode, walkList, renderEnter_text_plain s h, renderEnter, renderLeave,
      bqEff, Node.children, Node.meta, Node.isContainer, Node.withChildren,
      isTitleblockHeading, defaultOpts, st0, headers, String.append_assoc]
  · simp [walk0, walkNode, walkList, renderEnter_text_plain s h, renderEnter, renderLeave,
      bqEff, Node.children, Node.meta, Node.isContainer, Node.withChildren,
      isTitleblockHeading, defaultOpts, st0, headers, String.append_assoc]
  · simp [walk0, walkNode, walkList, renderEnter_text_plain s h, renderEnter, renderLeave,
      bqEff, Node.children, Node.meta, Node.isContainer, Node.withChildren,
      isTitleblockHeading, defaultOpts, st0, headers, String.append_assoc]
  · simp [walk0, walkNode, walkList, renderEnter_text_plain s h, renderEnter, renderLeave,
      bqEff, Node.children, Node.meta, Node.isContainer, Node.withChildren,
      isTitleblockHeading, defaultOpts, st0, headers, String.append_assoc]
  · simp [walk0, walkNode, walkList, renderEnter_text_plain s h, renderEnter, renderLeave,
      bqEff, Node.children, Node.meta, Node.isContainer, Node.withChildren,
      isTitleblockHeading, defaultOpts, st0, headers, String.append_assoc]
  · simp [walk0, walkNode, walkList, renderEnter_text_plain s h, renderEnter, renderLeave,
      bqEff, Node.children, Node.meta, Node.isContainer, Node.withChildren,
      isTitleblockHeading, defaultOpts, st0, headers, String.append_assoc]
  · intro lvl hlvl
    have h0 : ¬ (lvl = 0) := by omega
    have h1 : ¬ (lvl - 1 < 6) := by omega
    have h2 : ¬ (lvl = 1 ∨ lvl = 2 ∨ lvl = 3) := by omega
    simp [walk0, walkNode, walkList, renderEnter_text_plain s h, renderEnter, renderLeave,
      bqEff, Node.children, Node.meta, Node.isContainer, Node.withChildren,
      isTitleblockHeading, defaultOpts, st0, headers, h0, h1, h2, String.append_assoc]

theorem C8_amended_witness :
    walk0 (.heading 1 false "" [.text "foo"]) =
      some ("\\chapter\x7bfoo\x7d\n", st0, .heading 1 false "" [.text "foo"]) ∧
    walk0 (.heading 7 false "" [.text "foo"]) =
      some ("\\textbf\x7bfoo\x7d ", st0, .heading 7 false "" [.text "foo"]) := by
  have h := C8_amended "foo" (by decide)
  exact ⟨h.1, h.2.2.2.2.2.2 7 (by omega)⟩

theorem findFreeByte_some (n : Nat) : ∀ (k : Nat) (text : List Nat) (d : Nat),
    findFreeByte k n text = some d →
      k ≤ d ∧ d < k + n ∧ d ∉ text ∧ ∀ j, k ≤ j → j < d → j ∈ text := by
  induction n with
  | zero => intro k text d h; simp [findFreeByte] at h
  | succ m ih =>
    intro k text d h
    simp only [findFreeByte] at h
    by_cases hk : k ∈ text
    · rw [if_pos hk] at h
      obtain ⟨h1, h2, h3, h4⟩ := ih (k + 1) text d h
      refine ⟨by omega, by omega, h3, ?_⟩
      intro j hj1 hj2
      by_cases hjk : j = k
      · subst hjk; exact hk
      · exact h4 j (by omega) hj2
    · rw [if_neg hk] at h
      injection h with h'
      subst h'
      exact ⟨le_refl _, by omega, hk, fun j hj1 hj2 => absurd hj2 (by omega)⟩

theorem findFreeByte_none (n : Nat) : ∀ (k : Nat) (text : List Nat),
    findFreeByte k n text = none → ∀ j, k ≤ j → j < k + n → j ∈ text := by
  induction n with
  | zero => intro k text _ j hj1 hj2; omega
  | succ m ih =>
    intro k text h j hj1 hj2
    simp only [findFreeByte] at h
    by_cases hk : k ∈ text
    · rw [if_pos hk] at h
      by_cases hjk : j = k
      · subst hjk; exact hk
      · exact ih (k + 1) text h j (by omega) (by omega)
    · rw [if_neg hk] at h
      exact absurd h (by simp)

/-- C4 as amended: the delimiter is the first byte of `!`..`)` (33..41)
absent from the literal, else the first byte of `+`..DEL (43..127, the DEL
byte 0x7F *included*, not `~`) absent from it, else 0 (the error marker);
the marker therefore only appears when every byte 33..127 except `*` occurs.
In particular content containing `!`..`(` gets the delimiter `)` (still in
the first range), and content containing all of `!`..`~` gets the DEL byte,
not the error marker. -/
theorem C4_amended (text : List Nat) :
    (getDelimiter text = 0 → ∀ k, 33 ≤ k → k ≤ 127 → k ≠ 42 → k ∈ text) ∧
    (∀ d, getDelimiter text = d → d ≠ 0 →
      d ∉ text ∧ 33 ≤ d ∧ d ≤ 127 ∧ d ≠ 42 ∧
        (d ≤ 41 → ∀ j, 33 ≤ j → j < d → j ∈ text) ∧
        (43 ≤ d → (∀ j, 33 ≤ j → j ≤ 41 → j ∈ text) ∧ (∀ j, 43 ≤ j → j < d → j ∈ text))) ∧
    getDelimiter (List.range' 33 8) = 41 ∧
    getDelimiter (List.range' 33 94) = 127 ∧
    renderCodeStr (String.mk ((List.range' 33 94).map Char.ofNat)) =
      "\\lstinline" ++ String.mk [Char.ofNat 127] ++
        String.mk ((List.range' 33 94).map Char.ofNat) ++ String.mk [Char.ofNat 127] := by
  refine ⟨?_, ?_, by decide, by decide, by decide⟩
  · intro h0 k hk1 hk2 hk3
    unfold getDelimiter at h0
    rcases hf1 : findFreeByte 33 9 text with _ | d1
    · rcases hf2 : findFreeByte 43 85 text with _ | d2
      · have g1 := findFreeByte_none 9 33 text hf1
        have g2 := findFreeByte_none 85 43 text hf2
        by_cases hk4 : k ≤ 41
        · exact g1 k (by omega) (by omega)
        · exact g2 k (by omega) (by omega)
      · rw [hf1, hf2] at h0
        simp at h0
        have := findFreeByte_some 85 43 text d2 hf2
        omega
    · rw [hf1] at h0
      simp at h0
      have := findFreeByte_some 9 33 text d1 hf1
      omega
  · intro d hd hd0
    unfold getDelimiter at hd
    rcases hf1 : findFreeByte 33 9 text with _ | d1
    · rcases hf2 : findFreeByte 43 85 text with _ | d2
      · rw [hf1, hf2] at hd
        simp at hd
        omega
      · rw [hf1, hf2] at hd
        simp at hd
        subst hd
        have g1 := findFreeByte_none 9 33 text hf1
        obtain ⟨h1, h2, h3, h4⟩ := findFreeByte_some 85 43 text d2 hf2
        refine ⟨h3, by omega, by omega, by omega, by omega, ?_⟩
        intro _
        exact ⟨fun j hj1 hj2 => g1 j (by omega) (by omega), fun j hj1 hj2 => h4 j hj1 hj2⟩
    · rw [hf1] at hd
      simp at hd
      subst hd
      obtain ⟨h1, h2, h3, h4⟩ := findFreeByte_some 9 33 text d1 hf1
      refine ⟨h3, by omega, by omega, by omega, fun _ j hj1 hj2 => h4 j hj1 hj2, ?_⟩
      intro hge
      omega

theorem C4_amended_witness :
    (33:Nat) ∈ [(33:Nat)] ∧ getDelimiter [33] = 34 ∧ (34:Nat) ∉ [(33:Nat)] := by
  have h := C4_amended [33]
  have h2 := h.2.1 34 rfl (by decide)
  exact ⟨h2.2.2.2.2.1 (by decide) 33 (by decide) (by decide), rfl, h2.1⟩

/-- C4 counterexample: for content containing every one of `!`..`(` the
claim expects a delimiter from `+`..`~`, but the code picks `)` (41); for
content containing all of `!`..`~` the claim expects the rendering-error
marker, but the code picks the DEL byte 127 and emits a DEL-delimited
`\lstinline`. -/
theorem C4_counterexample :
    getDelimiter (List.range' 33 8) = 41 ∧ ¬ ((43:Nat) ≤ 41) ∧
    renderCodeStr (String.mk ((List.range' 33 94).map Char.ofNat)) ≠
      "\\lstinline" ++ "!<RENDERING ERROR: no delimiter found>!" := by
  decide

set_option maxHeartbeats 2000000 in
/-- C9: a 4-column table with first-row alignments default/left/center/right,
all border flags false and no per-cell options renders with column spec
`llcr`, header cells wrapped in `\textbf`, one `\hline` after the header
group, and every row terminated by ` \\` and a newline. -/
theorem C9_table4 (h1 h2 h3 h4 b1 b2 b3 b4 : String)
    (p1 : ∀ c ∈ h1.data, latexEscaper c = none)
    (p2 : ∀ c ∈ h2.data, latexEscaper c = none)
    (p3 : ∀ c ∈ h3.data, latexEscaper c = none)
    (p4 : ∀ c ∈ h4.data, latexEscaper c = none)
    (p5 : ∀ c ∈ b1.data, latexEscaper c = none)
    (p6 : ∀ c ∈ b2.data, latexEscaper c = none)
    (p7 : ∀ c ∈ b3.data, latexEscaper c = none)
    (p8 : ∀ c ∈ b4.data, latexEscaper c = none) :
    walk0 (table4 h1 h2 h3 h4 b1 b2 b3 b4) =
      some ("\\begin\x7bcenter\x7d\n\\begin\x7btabular\x7d\x7bllcr\x7d\n" ++
        "\\textbf\x7b" ++ h1 ++ "\x7d & \\textbf\x7b" ++ h2 ++ "\x7d & \\textbf\x7b" ++ h3 ++
        "\x7d & \\textbf\x7b" ++ h4 ++ "\x7d \\\\\n\\hline\n" ++
        b1 ++ " & " ++ b2 ++ " & " ++ b3 ++ " & " ++ b4 ++ " \\\\\n" ++
        "\\end\x7btabular\x7d\n\\end\x7bcenter\x7d\n\n", st0,
        table4 h1 h2 h3 h4 b1 b2 b3 b4) := by
  simp [table4, walk0, walkNode, walkList, bqEff, Node.children, Node.meta,
    Node.isContainer, Node.withChildren, isTitleblockHeading,
    renderEnter_text_plain h1 p1, renderEnter_text_plain h2 p2,
    renderEnter_text_plain h3 p3, renderEnter_text_plain h4 p4,
    renderEnter_text_plain b1 p5, renderEnter_text_plain b2 p6,
    renderEnter_text_plain b3 p7, renderEnter_text_plain b4 p8,
    renderEnter, renderLeave, colSpec, findCellsL, findCellsN, cellsLoop, cellColItem,
    cellAlignment, Node.cellOpts, Node.cellIsLast, Node.cellAlign, defaultOpts,
    String.append_assoc]
  apply String.ext
  simp [String.data_append]

theorem C9_table4_witness :
    walk0 (table4 "default" "left" "center" "right" "foo" "bar" "baz" "qux") =
      some ("\\begin\x7bcenter\x7d\n\\begin\x7btabular\x7d\x7bllcr\x7d\n" ++
        "\\textbf\x7b" ++ "default" ++ "\x7d & \\textbf\x7b" ++ "left" ++ "\x7d & \\textbf\x7b" ++ "center" ++
        "\x7d & \\textbf\x7b" ++ "right" ++ "\x7d \\\\\n\\hline\n" ++
        "foo" ++ " & " ++ "bar" ++ " & " ++ "baz" ++ " & " ++ "qux" ++ " \\\\\n" ++
        "\\end\x7btabular\x7d\n\\end\x7bcenter\x7d\n\n", st0,
        table4 "default" "left" "center" "right" "foo" "bar" "baz" "qux") := by
  exact C9_table4 "default" "left" "center" "right" "foo" "bar" "baz" "qux"
    (by decide) (by decide) (by decide) (by decide)
    (by decide) (by decide) (by decide) (by decide)

/-- C5 counterexample.  (i) For the literal `"\n-- A"` the last line starts
with `-- `, but `strings.LastIndexByte` returns 0 and neither the `pos > 0`
nor the `pos == -1` branch applies: nothing is extracted and the tree is
unchanged.  (ii) For a quote whose sole paragraph's sole text is `"-- A"`
the argument *is* extracted, but neither the text node nor the paragraph has
a previous sibling, so nothing is detached: the attribution line stays in
the tree and is rendered inside the environment as well. -/
theorem C5_counterexample :
    (walk0 (.blockQuote [.paragraph [.text "\n-- A"]]) =
      some ("\\begin\x7bquotation\x7d\n\n-- A\n\\end\x7bquotation\x7d\n\n", st0,
        .blockQuote [.paragraph [.text "\n-- A"]])) ∧
    "\\begin\x7bquotation\x7d\n\n-- A\n\\end\x7bquotation\x7d\n\n" ≠
      "\\begin\x7bquotation\x7d\x7bA\x7d\n\n\\end\x7bquotation\x7d\n\n" ∧
    (walk0 (.blockQuote [.paragraph [.text "-- A"]]) =
      some ("\\begin\x7bquotation\x7d\x7bA\x7d\n-- A\n\\end\x7bquotation\x7d\n\n", st0,
        .blockQuote [.paragraph [.text "-- A"]])) := by
  refine ⟨?_, by decide, ?_⟩
  · simp [walk0, walkNode, walkList, renderEnter, renderLeave, Escape, escChars,
      latexEscaper, bqEff, bqExtract, lastIdx, startsWithL, envArgs, Node.children,
      Node.meta, Node.isContainer, Node.withChildren, isTitleblockHeading, defaultOpts, st0]
  · simp [walk0, walkNode, walkList, renderEnter, renderLeave, Escape, escChars,
      latexEscaper, bqEff, bqExtract, lastIdx, startsWithL, trimSpace, goIsSpace, envArgs,
      Node.children, Node.meta, Node.isContainer, Node.withChildren, isTitleblockHeading,
      defaultOpts, st0]

theorem lastIdx_not_mem (c : Char) (l : List Char) (h : c ∉ l) : lastIdx c l = -1 := by
  induction l with
  | nil => rfl
  | cons x xs ih =>
    have hx : ¬ (x = c) := fun he => h (by simp [he])
    have hxs : c ∉ xs := fun hm => h (by simp [hm])
    simp [lastIdx, ih hxs, hx]

theorem lastIdx_append_nl (pre tail : List Char) (h : '\n' ∉ tail) :
    lastIdx '\n' (pre ++ '\n' :: tail) = pre.length := by
  induction pre with
  | nil => simp [lastIdx, lastIdx_not_mem '\n' tail h]
  | cons x xs ih =>
    simp only [List.cons_append, lastIdx, ih]
    have : ((xs.length : Int) ≥ 0) := by omega
    simp [this]
    omega

theorem startsWithL_append (p t : List Char) : startsWithL (p ++ t) p = true := by
  induction p with
  | nil => simp [startsWithL]
  | cons x xs ih => simp [startsWithL, ih]

theorem data_ne_nil (s : String) (h : s ≠ "") : s.data ≠ [] := by
  intro hd
  apply h
  cases s with
  | mk d => simp at hd; simp [hd]

theorem bqExtract_trailing (pre a : String) (hpre : pre ≠ "") (ha : '\n' ∉ a.data) :
    bqExtract [.paragraph [.text (pre ++ ("\n-- " ++ a))]] =
      some ([trimSpace a], [.paragraph [.text pre]]) := by
  have htail : '\n' ∉ ('-' :: '-' :: ' ' :: a.data) := by simp [ha]
  have hposC : lastIdx '\n' (pre.data ++ '\n' :: '-' :: '-' :: ' ' :: a.data) =
      (pre.length : Int) := lastIdx_append_nl pre.data _ htail
  have hlen : 0 < pre.length := List.length_pos.mpr (data_ne_nil pre hpre)
  have hgt : (0 : Int) < (pre.length : Int) := by exact_mod_cast hlen
  have hdropC : List.drop (pre.length + 1) (pre.data ++ '\n' :: '-' :: '-' :: ' ' :: a.data) =
      '-' :: '-' :: ' ' :: a.data := by
    have he : pre.data ++ '\n' :: '-' :: '-' :: ' ' :: a.data =
        (pre.data ++ ['\n']) ++ ('-' :: '-' :: ' ' :: a.data) := by simp
    have hl : (pre.data ++ ['\n']).length = pre.length + 1 := by simp
    rw [he, ← hl, List.drop_left]
  have hdrop4 : List.drop (pre.length + 1 + 3) (pre.data ++ '\n' :: '-' :: '-' :: ' ' :: a.data) =
      a.data := by
    have he : pre.data ++ '\n' :: '-' :: '-' :: ' ' :: a.data =
        (pre.data ++ ['\n', '-', '-', ' ']) ++ a.data := by simp
    have hl : (pre.data ++ ['\n', '-', '-', ' ']).length = pre.length + 1 + 3 := by
      simp
    rw [he, ← hl, List.drop_left]
  have htakeC : List.take pre.length (pre.data ++ '\n' :: '-' :: '-' :: ' ' :: a.data) =
      pre.data := List.take_left ..
  simp [bqExtract, hposC, hgt, hlen, hdropC, hdrop4, htakeC, startsWithL, strMk_data]

theorem bqExtract_detach (s a : String) (ha : '\n' ∉ a.data) :
    bqExtract [.paragraph [.text s, .text ("-- " ++ a)]] =
      some ([trimSpace a], [.paragraph [.text s]]) := by
  have hnl : '\n' ∉ ('-' :: '-' :: ' ' :: a.data) := by simp [ha]
  have hneg : lastIdx '\n' ('-' :: '-' :: ' ' :: a.data) = -1 := lastIdx_not_mem _ _ hnl
  simp [bqExtract, hneg, startsWithL, strMk_data]

/-- C5 as amended: the attribution is recognized when the literal's *last
newline sits at a positive index* and the segment after it starts with
`-- ` (trailing-line form: the literal is truncated at that newline), or when
the literal *contains no newline at all* and itself starts with `-- ` (sole
content form: the text node is detached when it has a previous sibling).  A
literal whose only newline is at index 0 is not recognized, and when neither
the text node nor its paragraph has a previous sibling nothing is detached
even though the argument is emitted (see the counterexample). -/
theorem C5_amended (pre s a : String) (hpre : pre ≠ "")
    (hplainPre : ∀ c ∈ pre.data, latexEscaper c = none)
    (hplainS : ∀ c ∈ s.data, latexEscaper c = none)
    (ha : '\n' ∉ a.data) :
    (walk0 (.blockQuote [.paragraph [.text (pre ++ "\n-- " ++ a)]]) =
      some ("\\begin\x7bquotation\x7d\x7b" ++ trimSpace a ++ "\x7d\n" ++ pre ++
        "\n\\end\x7bquotation\x7d\n\n", st0, .blockQuote [.paragraph [.text pre]])) ∧
    (walk0 (.blockQuote [.paragraph [.text s, .text ("-- " ++ a)]]) =
      some ("\\begin\x7bquotation\x7d\x7b" ++ trimSpace a ++ "\x7d\n" ++ s ++
        "\n\\end\x7bquotation\x7d\n\n", st0, .blockQuote [.paragraph [.text s]])) := by
  constructor
  · simp [walk0, walkNode, walkList, renderEnter, renderLeave, bqEff,
      bqExtract_trailing pre a hpre ha, renderEnter_text_plain pre hplainPre,
      envArgs, Node.children, Node.meta, Node.isContainer, Node.withChildren,
      isTitleblockHeading, defaultOpts, String.append_assoc]
    apply String.ext
    simp [String.data_append]
  · simp [walk0, walkNode, walkList, renderEnter, renderLeave, bqEff,
      bqExtract_detach s a ha, renderEnter_text_plain s hplainS,
      envArgs, Node.children, Node.meta, Node.isContainer, Node.withChildren,
      isTitleblockHeading, defaultOpts, String.append_assoc]
    apply String.ext
    simp [String.data_append]

theorem C5_amended_witness :
    (walk0 (.blockQuote [.paragraph [.text ("q" ++ "\n-- " ++ " A ")]]) =
      some ("\\begin\x7bquotation\x7d\x7b" ++ trimSpace " A " ++ "\x7d\n" ++ "q" ++
        "\n\\end\x7bquotation\x7d\n\n", st0, .blockQuote [.paragraph [.text "q"]])) ∧
    (walk0 (.blockQuote [.paragraph [.text "x", .text ("-- " ++ " A ")]]) =
      some ("\\begin\x7bquotation\x7d\x7b" ++ trimSpace " A " ++ "\x7d\n" ++ "x" ++
        "\n\\end\x7bquotation\x7d\n\n", st0, .blockQuote [.paragraph [.text "x"]])) := by
  have h := C5_amended "q" "x" " A " (by decide) (by decide) (by decide) (by decide)
  exact ⟨h.1, h.2⟩

/-- The test part of the block-quote attribution edit: does the child list
have the shape and literal on which `bqExtract` extracts an attribution?
(`bqExtract` changes the list only in the first two positive arms; the
sole-content arm with no previous siblings keeps the list but still emits an
argument, and is conservatively counted as a trigger too.) -/
def bqTrigger (cs : List Node) : Bool :=
  match cs.getLast? with
  | some (.paragraph pcs) =>
    match pcs.getLast? with
    | some (.text lit) =>
      let s := lit.data
      if s.length > 0 then
        let pos := lastIdx '\n' s
        if pos > 0 then startsWithL (s.drop (pos.toNat + 1)) ("-- ".data)
        else if pos = -1 then startsWithL s ("-- ".data)
        else false
      else false
    | _ => false
  | _ => false

mutual

/-- No node of the tree (footnote subtrees included) is a block quote whose
children match the attribution pattern: rendering such a tree never mutates
it. -/
def noMutN : Node → Bool
  | .blockQuote cs => !bqTrigger cs && noMutL cs
  | .link _ _ fn cs =>
    (match fn with | some f => noMutN f | none => true) && noMutL cs
  | .document cs | .del cs | .emph cs | .heading _ _ _ cs | .image _ _ cs
  | .item _ cs | .list _ _ cs | .paragraph cs | .strong cs | .table _ cs
  | .tableBody cs | .tableCell _ _ _ _ cs | .tableHead cs | .tableRow _ cs => noMutL cs
  | _ => true

def noMutL : List Node → Bool
  | [] => true
  | n :: rest => noMutN n && noMutL rest

end

theorem bqExtract_noTrigger (cs : List Node) (a : List String) (cs' : List Node)
    (h : bqExtract cs = some (a, cs')) (ht : bqTrigger cs = false) : cs' = cs := by
  unfold bqExtract bqTrigger at *
  rcases hl : cs.getLast? with _ | lastChild
  · rw [hl] at h; exact absurd h (by simp)
  · rw [hl] at h ht
    cases lastChild with
    | paragraph pcs =>
      simp only at h ht
      rcases hp : pcs.getLast? with _ | lastText
      · rw [hp] at h; exact absurd h (by simp)
      · rw [hp] at h ht
        cases lastText with
        | text lit =>
          simp only at h ht
          split at h
          · rw [if_pos (by assumption)] at ht
            split at h
            · rw [if_pos (by assumption)] at ht
              split at h
              · simp_all
              · simp_all
            · rw [if_neg (by assumption)] at ht
              split at h
              · rw [if_pos (by assumption)] at ht
                split at h
                · simp_all
                · simp_all
              · simp_all
          · simp_all
        | _ =>
          first
          | (simp only at h; injection h with h'; injection h' with _ h''; exact h''.symm)
    | _ =>
      first
      | (simp only at h; injection h with h'; injection h' with _ h''; exact h''.symm)

theorem noMutN_children (n : Node) (h : noMutN n = true) : noMutL n.children = true := by
  cases n with
  | link d nid fn cs =>
    cases fn <;> simp_all [noMutN, noMutL, Node.children]
  | _ => simp_all [noMutN, noMutL, Node.children]

theorem withChildren_children (n : Node) : n.withChildren n.children = n := by
  cases n <;> rfl

theorem bqEff_noMut (n : Node) (h : noMutN n = true) : bqEff n = n.children := by
  cases n with
  | blockQuote cs =>
    have ht : bqTrigger cs = false := by
      simp [noMutN] at h
      simpa using h.1
    rcases hb : bqExtract cs with _ | p
    · simp [bqEff, hb, Node.children]
    · obtain ⟨a, cs'⟩ := p
      simp [bqEff, hb, Node.children]
      exact bqExtract_noTrigger cs a cs' hb ht
  | _ => simp [bqEff]

/-- Preservation motive for `renderEnter`. -/
def PE (o : Opts) (pc : Ctx) (st : EscState) (n : Node) : Prop :=
  ∀ out st' n' ws, renderEnter o pc st n = some (out, st', n', ws) → noMutN n = true → n' = n

/-- Preservation motive for `walkList`. -/
def PL (o : Opts) (sTB : Bool) (pm : NMeta) (gm : Option NMeta) (st : EscState)
    (ns : List Node) : Prop :=
  ∀ out st' ns', walkList o sTB pm gm st ns = some (out, st', ns') → noMutL ns = true → ns' = ns

/-- Preservation motive for `walkNode`. -/
def PW (o : Opts) (sTB : Bool) (pc : Ctx) (st : EscState) (n : Node) : Prop :=
  ∀ out st' n', walkNode o sTB pc st n = some (out, st', n') → noMutN n = true → n' = n

theorem walk_preserves (o : Opts) (sTB : Bool) (pc : Ctx) (st : EscState) (n : Node) :
    PW o sTB pc st n := by
  induction sTB, pc, st, n using walkNode.induct
  case o => exact o
  case motive1 a b c => exact PE o a b c
  case motive2 a b c d e => exact PL o a b c d e
  all_goals
    try (simp only [PE, PL, PW]; intros; rename_i h hnm; simp_all [renderEnter, walkNode, walkList])
  case case3 pcA stA csA argsA csB hbq outA stB nA wsA =>
    obtain ⟨h1, h2, h3, h4⟩ := h
    rw [← h3]
    simp only [noMutN, Bool.and_eq_true, Bool.not_eq_true'] at hnm
    rw [bqExtract_noTrigger csA argsA csB hbq hnm.1]
  case case12 pcA stA lvl tb cfg csA outA stB nA wsA htb hl0 hl6 =>
    rw [if_neg (by omega)] at h
    simp_all
  case case16 pcA stA d t csA outA stB nA wsA hp =>
    unfold renderEnter at h
    rw [if_pos (by simpa using hp)] at h
    simp_all
  case case17 pcA stA d t csA outA stB nA wsA hp =>
    unfold renderEnter at h
    rw [if_neg (by simp [hp.1, hp.2])] at h
    simp_all
  case case19 pcA stA d nid fn hsk =>
    intro outA stB nA wsA h hnm
    unfold renderEnter at h
    rw [if_pos hsk] at h
    simp at h
  case case20 pcA stA nid fn lit hsk =>
    intro outA stB nA wsA h hnm
    unfold renderEnter at h
    rw [if_pos hsk] at h
    simp_all
  case case21 pcA stA d nid fn hsk lit hne =>
    intro outA stB nA wsA h hnm
    unfold renderEnter at h
    rw [if_pos hsk] at h
    simp_all
  case case22 pcA stA d nid fn hsk cA outA stB nA wsA hne =>
    unfold renderEnter at h
    rw [if_pos hsk] at h
    cases cA <;> simp_all
  case case23 pcA stA d nid fn csA hsk outA stB nA wsA hn0 hn1 =>
    unfold renderEnter at h
    rw [if_pos hsk] at h
    rcases csA with _ | ⟨c1, _ | ⟨c2, rest⟩⟩ <;> simp_all
  case case24 pcA stA d nid csA outA stB nA wsA hsk hnid =>
    unfold renderEnter at h
    rw [if_neg (by simp [hsk]), if_pos hnid] at h
    simp at h
  case case25 pcA stA d nid csA fA outA stB nA wsA hsk hnid hwl ih =>
    unfold renderEnter at h
    rw [if_neg (by simp [hsk]), if_pos hnid] at h
    simp only [hwl] at h
    exact absurd h (by simp)
  case case26 pcA stA d nid csA fA buf st1b fcsA outA stB nA wsA hsk hnid hwl ih =>
    unfold renderEnter at h
    rw [if_neg (by simp [hsk]), if_pos hnid] at h
    simp only [hwl] at h
    simp only [noMutN, Bool.and_eq_true] at hnm
    have hfc := noMutN_children fA hnm.1
    have hfcs := ih _ _ _ hwl hfc
    rw [hfcs, withChildren_children] at h
    simp_all
  case case27 pcA stA d nid fn csA outA stB nA wsA hsk h0 =>
    unfold renderEnter at h
    rw [if_neg (by simp [hsk]), if_neg (by simp)] at h
    simp_all
  case case44 sA pmA gmA stA cA csA o1A st1A n1A bufA st2A fcsA outA st3A nsA hwn hwl ih2 ih1 =>
    simp only [noMutL, Bool.and_eq_true] at hnm
    have h1 := ih2 o1A st1A n1A (by unfold walkNode; simp only [Bool.and_eq_true, Bool.or_eq_true, decide_eq_true_eq, Bool.not_eq_true']; exact hwn) hnm.1
    have h2 := ih1 _ _ _ hwl hnm.2
    obtain ⟨_, _, h3⟩ := h
    rw [← h3, h1, h2]
  case case47 sA pcA stA nA o1A st1A n1A wsA outA stB nB hTB hre hws ih =>
    have hcond : ¬(sA = true ∧ isTitleblockHeading nA = true) := by
      rintro ⟨h1, h2⟩
      rw [hTB h1] at h2
      cases h2
    rw [if_neg hcond] at h
    have h1 := ih _ _ _ _ hre hnm
    simp_all
  case case50 sA pcA stA nA o1A st1A n1A wsA bufA st2A fcsA o3A sndA outA st3A nB hTB hre hws hwl hrl ih2 ih1 =>
    have hcond : ¬(sA = true ∧ isTitleblockHeading nA = true) := by
      rintro ⟨h1, h2⟩
      rw [hTB h1] at h2
      cases h2
    rw [if_neg hcond] at h
    have h1 := ih2 _ _ _ _ hre hnm
    have hfc : noMutL (bqEff nA) = true := by
      rw [bqEff_noMut nA hnm]
      exact noMutN_children nA hnm
    have h2 := ih1 _ _ _ hwl hfc
    simp only [Option.some.injEq, Prod.mk.injEq] at h
    obtain ⟨ho, hs, h3⟩ := h
    rw [← h3, h1, h2, bqEff_noMut nA hnm, withChildren_children]

/-- Preservation motive for `gtN`: on non-mutating trees the `getTitle` walk
returns the tree unchanged. -/
def GTN (n : Node) : Prop :=
  ∀ r n', gtN n = some (r, n') → noMutN n = true → n' = n

/-- Preservation motive for `gtL`. -/
def GTL (ns : List Node) : Prop :=
  ∀ r ns', gtL ns = some (r, ns') → noMutL ns = true → ns' = ns

theorem gt_preserves (n : Node) : GTN n := by
  induction n using gtN.induct
  case motive_2 a => exact GTL a
  case case1 lvl cfg cs hwn =>
    intro r n' h hnm
    simp_all [gtN]
  case case2 lvl cfg cs o1 st1 n1 hwn =>
    intro r n' h hnm
    have h1 := walk_preserves {} false rootCtx st0 (Node.heading lvl true cfg cs) o1 st1 n1 hwn hnm
    simp_all [gtN]
  all_goals
    try (simp only [GTN, GTL]; intro r n' h hnm; simp_all [gtN, gtL, noMutN, noMutL, Bool.and_eq_true])
  all_goals
    try (rename_i hg ih; rw [← h.2, ih _ _ hg (by simp_all)])
  case case18 =>
    rename_i hg ih
    rw [← h.2, ih _ _ hg (by have h2 := noMutN_children _ hnm; simpa [Node.children] using h2)]
  case case40 =>
    rename_i hg1 r2 cs2 hg2 ih2 ih1
    rw [← h.2, ih2 _ _ hg1 hnm.1, ih1 _ _ hg2 hnm.2]

theorem renderHeader_preserves (o : Opts) (ast : Node) (s : String) (ast' : Node)
    (h : renderHeader o ast = some (s, ast')) (hnm : noMutN ast = true) : ast' = ast := by
  simp only [renderHeader] at h
  split at h
  · rcases hg : gtN ast with _ | p
    · rw [hg] at h
      exact absurd h (by simp)
    · obtain ⟨tOpt, ast1⟩ := p
      simp only [hg] at h
      simp only [Option.some.injEq, Prod.mk.injEq] at h
      rw [← h.2]
      exact gt_preserves ast tOpt ast1 hg hnm
  · split at h <;> simp_all

theorem Render_preserves (o : Opts) (ast : Node) (out : String) (ast' : Node)
    (h : Render o ast = some (out, ast')) (hnm : noMutN ast = true) : ast' = ast := by
  unfold Render at h
  rcases hh : renderHeader o ast with _ | p
  · rw [hh] at h
    exact absurd h (by simp)
  · obtain ⟨hs, ast1⟩ := p
    simp only [hh] at h
    have h1 := renderHeader_preserves o ast hs ast1 hh hnm
    subst h1
    rcases hw : walkNode o true rootCtx st0 ast1 with _ | q
    · rw [hw] at h
      exact absurd h (by simp)
    · obtain ⟨b, st', ast2⟩ := q
      simp only [hw] at h
      have h2 := walk_preserves o true rootCtx st0 ast1 b st' ast2 hw hnm
      simp_all

/-- C6 counterexample: rendering is not repeatable on the same tree value.
`Render` physically strips a block-quote attribution line from the tree, so a
second render of the tree returned by the first one lacks the `\x7bA\x7d`
argument: the two outputs differ. -/
theorem C6_counterexample :
    Render defaultOpts (.document [.blockQuote [.paragraph [.text "q\n-- A"]]]) =
      some ("\\begin\x7bquotation\x7d\x7bA\x7d\nq\n\\end\x7bquotation\x7d\n\n",
        .document [.blockQuote [.paragraph [.text "q"]]]) ∧
    Render defaultOpts (.document [.blockQuote [.paragraph [.text "q"]]]) =
      some ("\\begin\x7bquotation\x7d\nq\n\\end\x7bquotation\x7d\n\n",
        .document [.blockQuote [.paragraph [.text "q"]]]) ∧
    ("\\begin\x7bquotation\x7d\x7bA\x7d\nq\n\\end\x7bquotation\x7d\n\n" : String) ≠
      "\\begin\x7bquotation\x7d\nq\n\\end\x7bquotation\x7d\n\n" := by
  refine ⟨?_, ?_, by decide⟩ <;>
    simp [Render, renderHeader, renderFooter, defaultOpts, walkNode, walkList,
      renderEnter, renderLeave, Escape, escChars, latexEscaper, bqEff, bqExtract,
      lastIdx, startsWithL, trimSpace, goIsSpace, envArgs, Node.children, Node.meta,
      Node.isContainer, Node.withChildren, isTitleblockHeading, st0]

/-- C6 (amended): rendering the same tree twice with two fresh renderer
instances yields byte-identical output *provided the tree contains no block
quote matching the attribution pattern* (`noMutN`): on such trees `Render`
returns the tree unchanged, and rendering the returned tree again gives
exactly the same bytes.  (On trees with a matching block quote the first
render mutates the tree and a second render can produce different bytes, see
the counterexample.) -/
theorem C6_amended (o : Opts) (ast : Node) (out : String) (ast' : Node)
    (hnm : noMutN ast = true) (h : Render o ast = some (out, ast')) :
    ast' = ast ∧ Render o ast' = some (out, ast') := by
  have h1 := Render_preserves o ast out ast' h hnm
  refine ⟨h1, ?_⟩
  rw [h1] at h ⊢
  exact h

/-- Witness for `C6_amended`: a one-paragraph document renders to `"x\n"`,
is returned unchanged, and renders identically a second time. -/
theorem C6_amended_witness :
    noMutN (.document [.paragraph [.text "x"]]) = true ∧
    ((Node.document [.paragraph [.text "x"]]) = .document [.paragraph [.text "x"]] ∧
     Render defaultOpts (.document [.paragraph [.text "x"]]) =
       some ("x\n", .document [.paragraph [.text "x"]])) := by
  have h2 : Render defaultOpts (.document [.paragraph [.text "x"]]) =
      some ("x\n", .document [.paragraph [.text "x"]]) := by
    simp [Render, renderHeader, renderFooter, defaultOpts, walkNode, walkList,
      renderEnter, renderLeave, Escape, escChars, latexEscaper, bqEff, Node.children,
      Node.meta, Node.isContainer, Node.withChildren, isTitleblockHeading, st0]
  exact ⟨by decide, C6_amended defaultOpts _ _ _ (by decide) h2⟩
